import Mathlib

/-!
Shallow embedding of the Klondike Solitaire engine from the `neon_solitaire`
repository (files `src/card.rs`, `src/game.rs`, `src/moves.rs`, and the
draw-count toggle from `src/input.rs`), together with proofs settling the
frozen claims about its specification.

Modelling conventions:
* Rust `Vec<T>` is a Lean `List T`; `push` appends at the end, `pop` removes
  the last element, so the end of the list is the accessible "top" of a pile.
* Rust `u32`/`usize` counters are `Nat`; `score: i32` is `Int` (no operation
  comes near the `i32` range, every score delta is between -20 and +15).
* A Rust indexing operation `v[i]` that can panic out of bounds is modelled
  with `List.get?` / `List.getD`: functions whose result must record the
  panic possibility return `Option` (`none` = the Rust code panics there).
* `GameState.undo_stack : Vec<GameState>` stores snapshots whose own
  `undo_stack` field has always been cleared (`game.rs:173`), and `undo`
  discards the popped snapshot's stack wholesale (`game.rs:179-181`), so a
  snapshot's nested history is never observable.  We therefore split the
  Rust `GameState` into a `Board` (every field except `undo_stack`) plus a
  stack of `Board` snapshots; this is exactly the observable content.
-/

/-- Suit of a card (`card.rs:5-10`). -/
inductive Suit where
  | Hearts
  | Diamonds
  | Clubs
  | Spades
deriving DecidableEq, Repr, Fintype

/-- Rank of a card (`card.rs:13-27`); `val` is the Rust enum discriminant. -/
inductive Rank where
  | Ace
  | Two
  | Three
  | Four
  | Five
  | Six
  | Seven
  | Eight
  | Nine
  | Ten
  | Jack
  | Queen
  | King
deriving DecidableEq, Repr, Fintype

/-- Numeric value of a rank, matching the Rust discriminants Ace=1 .. King=13
(`card.rs:14-26`, used via `as u8` casts). -/
def Rank.val : Rank → Nat
  | .Ace => 1
  | .Two => 2
  | .Three => 3
  | .Four => 4
  | .Five => 5
  | .Six => 6
  | .Seven => 7
  | .Eight => 8
  | .Nine => 9
  | .Ten => 10
  | .Jack => 11
  | .Queen => 12
  | .King => 13

/-- A playing card (`card.rs:29-34`). -/
structure Card where
  suit : Suit
  rank : Rank
  face_up : Bool
deriving DecidableEq, Repr

instance : Inhabited Card := ⟨⟨Suit.Hearts, Rank.Ace, false⟩⟩

/-- Card construction (`card.rs:37-43`): cards are created face down. -/
def Card.new (suit : Suit) (rank : Rank) : Card :=
  { suit := suit, rank := rank, face_up := false }

/-- Red-suit test (`card.rs:49-51`). -/
def Card.is_red (c : Card) : Bool :=
  c.suit == Suit.Hearts || c.suit == Suit.Diamonds

/-- Stacking rule (`card.rs:57-62`): different colors and this card's rank is
one less than the other card's.  The Rust code compares `u8` values; since
ranks are 1..13 the subtraction `other.rank - 1` never wraps, so `Nat`
subtraction is exact here. -/
def Card.can_stack_on (c other : Card) : Bool :=
  (c.is_red != other.is_red) && (c.rank.val == other.rank.val - 1)

/-- The 52-card deck in suit-major, rank-ascending order, all face down
(`card.rs:150-176`). -/
def create_standard_deck : List Card :=
  ([Suit.Hearts, Suit.Diamonds, Suit.Clubs, Suit.Spades].map fun s =>
    [Rank.Ace, Rank.Two, Rank.Three, Rank.Four, Rank.Five, Rank.Six,
     Rank.Seven, Rank.Eight, Rank.Nine, Rank.Ten, Rank.Jack, Rank.Queen,
     Rank.King].map fun r => Card.new s r).flatten

/-- Pile discriminator (`game.rs:18-24`). -/
inductive PileType where
  | Tableau
  | Stock
  | Waste
  | Foundation
deriving DecidableEq, Repr

/-- All fields of the Rust `GameState` (`game.rs:5-16`) except `undo_stack`;
see the module comment for why the history is split off. -/
structure Board where
  tableau : List (List Card)
  stock : List Card
  waste : List Card
  foundations : List (List Card)
  selected_card : Option (PileType × Nat × Nat)
  move_count : Nat
  score : Int
  draw_count : Nat
deriving DecidableEq, Repr

/-- The Rust `GameState` (`game.rs:5-16`): the live board plus the bounded
undo history of board snapshots. -/
structure GameState where
  board : Board
  undo_stack : List Board
deriving DecidableEq, Repr

/-- Fresh deal (`game.rs:27-62`) as a function of the already-shuffled deck
(the shuffle itself delegates to an external randomness source,
`game.rs:28-29`, so the dealt permutation is the function's input).
Column `col` receives `deck[T..T+col]` unchanged plus `deck[T+col]` forced
face up, where `T = col*(col+1)/2` is the running deal index; the cards at
indices 28..52 go to stock in order. -/
def GameState.new (deck : List Card) : GameState :=
  { board :=
      { tableau := (List.range 7).map fun col =>
          (deck.drop (col * (col + 1) / 2)).take col ++
            ((deck.drop (col * (col + 1) / 2 + col)).take 1).map
              (fun c => { c with face_up := true }),
        stock := (deck.drop 28).take 24,
        waste := [],
        foundations := List.replicate 4 [],
        selected_card := none,
        move_count := 0,
        score := 0,
        draw_count := 3 },
    undo_stack := [] }

/-- Snapshot push (`game.rs:166-175`): evict the oldest snapshot when at
capacity 100, then push a copy of the live board (the copy's own history is
cleared, which the `Board` type makes implicit). -/
def GameState.save_undo_state (g : GameState) : GameState :=
  { g with undo_stack :=
      (if 100 ≤ g.undo_stack.length then g.undo_stack.drop 1 else g.undo_stack)
        ++ [g.board] }

/-- Undo (`game.rs:177-186`): pop the most recent snapshot, make it the live
board, and keep the remaining (pre-undo) history.  Returns whether a
snapshot existed. -/
def GameState.undo (g : GameState) : Bool × GameState :=
  match g.undo_stack.getLast? with
  | some prev => (true, { board := prev, undo_stack := g.undo_stack.dropLast })
  | none => (false, g)

/-- Draw (`game.rs:64-86`): snapshot first; if the stock is empty, recycle the
waste onto the stock reversed and face down with a -20 penalty floored at 0;
otherwise move `min(draw_count, stock.len)` cards from the stock top to the
waste top, flipping each face up; always bump `move_count`. -/
def GameState.draw_from_stock (g : GameState) : GameState :=
  let g1 := g.save_undo_state
  let b := g1.board
  let b1 :=
    if b.stock.isEmpty then
      { b with
          stock := b.stock ++ (b.waste.reverse.map fun (c : Card) => { c with face_up := false }),
          waste := [],
          score := max (b.score - 20) 0 }
    else
      let n := min b.draw_count b.stock.length
      { b with
          stock := b.stock.take (b.stock.length - n),
          waste := b.waste ++
            ((b.stock.drop (b.stock.length - n)).reverse.map
              fun (c : Card) => { c with face_up := true }) }
  { g1 with board := { b1 with move_count := b1.move_count + 1 } }

/-- Tableau-destination legality (`game.rs:88-96`).  The Rust code indexes
`self.tableau[target_col]` without a bounds check, so an out-of-range column
panics; that panic is modelled by `none`. -/
def Board.is_valid_tableau_move (b : Board) (card : Card) (target_col : Nat) :
    Option Bool :=
  match b.tableau.get? target_col with
  | none => none
  | some colCards =>
    match colCards.getLast? with
    | none => some (card.rank == Rank.King)
    | some target => some (card.can_stack_on target)

/-- Foundation-destination legality (`game.rs:98-107`).  As with the tableau
variant, an out-of-range foundation index panics in Rust, modelled by
`none`. -/
def Board.is_valid_foundation_move (b : Board) (card : Card) (foundation_idx : Nat) :
    Option Bool :=
  match b.foundations.get? foundation_idx with
  | none => none
  | some fCards =>
    match fCards.getLast? with
    | none => some (card.rank == Rank.Ace)
    | some top => some (card.suit == top.suit && card.rank.val == top.rank.val + 1)

/-- Win test (`game.rs:162-164`). -/
def GameState.is_won (g : GameState) : Bool :=
  g.board.foundations.all fun f => f.length == 13

/-- Draw-count toggle (`input.rs:282`): flips between draw-1 and draw-3. -/
def GameState.toggle_draw_count (g : GameState) : GameState :=
  { g with board :=
      { g.board with draw_count := if g.board.draw_count == 1 then 3 else 1 } }

/-- First foundation index in 0..3 accepting `card` (the `for f in 0..4` scans
in `game.rs:114,132` and `moves.rs:297,326`).  Comparison with `some true`
matches the Rust calls, which never go out of bounds there when the board has
its four foundations. -/
def autoFoundationTarget (b : Board) (card : Card) : Option Nat :=
  (List.range 4).find? fun f => b.is_valid_foundation_move card f == some true

/-- Left-to-right scan of the tableau columns for a face-up top card with a
legal foundation destination, returning the column, that card and the chosen
foundation (`game.rs:128-133` and `moves.rs:293-298` perform this identical
scan). -/
def autoTabScan (b : Board) : List Nat → Option (Nat × Card × Nat)
  | [] => none
  | col :: rest =>
    match (b.tableau.getD col []).getLast? with
    | some card =>
      if card.face_up then
        match autoFoundationTarget b card with
        | some f => some (col, card, f)
        | none => autoTabScan b rest
      else autoTabScan b rest
    | none => autoTabScan b rest

/-- Pop the top card of tableau column `col` onto foundation `f`, flipping the
newly exposed top card face up if it was face down and crediting `flipBonus`
for that flip, then add 10 and bump `move_count`.  This is the shared body of
`game.rs:134-147` (called with `flipBonus = 5`) and `moves.rs:299-311`
(called with `flipBonus = 0`: the auto-complete loop flips without the
bonus). -/
def applyTabToFoundation (b : Board) (col : Nat) (card : Card) (f : Nat)
    (flipBonus : Int) : Board :=
  let newCol := (b.tableau.getD col []).dropLast
  let flipped :=
    match newCol.getLast? with
    | some top =>
      if top.face_up then (newCol, (0 : Int))
      else (newCol.dropLast ++ [{ top with face_up := true }], flipBonus)
    | none => (newCol, 0)
  { b with
      tableau := b.tableau.set col flipped.1,
      foundations := b.foundations.set f ((b.foundations.getD f []) ++ [card]),
      score := b.score + flipped.2 + 10,
      move_count := b.move_count + 1 }

/-- Pop the waste top onto foundation `f` with the +10 credit and the
`move_count` bump (`game.rs:116-120` and `moves.rs:328-332`). -/
def applyWasteToFoundation (b : Board) (card : Card) (f : Nat) : Board :=
  { b with
      waste := b.waste.dropLast,
      foundations := b.foundations.set f ((b.foundations.getD f []) ++ [card]),
      score := b.score + 10,
      move_count := b.move_count + 1 }

/-- Single opportunistic foundation move (`game.rs:109-160`): try the waste
top against the four foundations, then scan the tableau; on a hit, snapshot
and apply the move (a tableau source credits the +5 flip bonus).  Returns
whether a move was made. -/
def GameState.auto_move_to_foundation (g : GameState) : Bool × GameState :=
  let b := g.board
  let wastePick : Option (Card × Nat) :=
    match b.waste.getLast? with
    | some card => (autoFoundationTarget b card).map fun f => (card, f)
    | none => none
  match wastePick with
  | some (card, f) =>
    let g1 := g.save_undo_state
    (true, { g1 with board := applyWasteToFoundation g1.board card f })
  | none =>
    match autoTabScan b (List.range 7) with
    | some (col, card, f) =>
      let g1 := g.save_undo_state
      (true, { g1 with board := applyTabToFoundation g1.board col card f 5 })
    | none => (false, g)

/-- One iteration of the `auto_complete` while-loop (`moves.rs:289-343`):
tableau scan first, then the waste top; note the tableau branch flips the
exposed card without any flip bonus (`moves.rs:303-308`). -/
def autoCompleteIter (g : GameState) : Bool × GameState :=
  let b := g.board
  match autoTabScan b (List.range 7) with
  | some (col, card, f) =>
    let g1 := g.save_undo_state
    (true, { g1 with board := applyTabToFoundation g1.board col card f 0 })
  | none =>
    match b.waste.getLast? with
    | some card =>
      match autoFoundationTarget b card with
      | some f =>
        let g1 := g.save_undo_state
        (true, { g1 with board := applyWasteToFoundation g1.board card f })
      | none => (false, g)
    | none => (false, g)

/-- The bounded loop of `auto_complete` (`moves.rs:289-346`): up to `fuel`
successful iterations; `made` accumulates whether any move was made. -/
def autoCompleteLoop : Nat → GameState → Bool → Bool × GameState
  | 0, g, made => (made, g)
  | fuel + 1, g, made =>
    let r := autoCompleteIter g
    if r.1 then autoCompleteLoop fuel r.2 true else (made, r.2)

/-- One invocation of `auto_complete` (`moves.rs:284-349`): at most 100
foundation moves, returning whether at least one was made. -/
def auto_complete (g : GameState) : Bool × GameState :=
  autoCompleteLoop 100 g false

/-- Source/destination address of a move (`moves.rs:13-18`). -/
structure MoveLocation where
  pile_type : PileType
  pile_index : Nat
  card_index : Nat
deriving DecidableEq, Repr

/-- A move (`moves.rs:4-11`).  The Rust field `from` is a Lean keyword, so it
is named `from_` here, and `to` (also reserved) is `to_`. -/
structure Move where
  from_ : MoveLocation
  to_ : MoveLocation
  cards : List Card
  score_change : Int
  flipped_card : Option (Nat × Card)
deriving DecidableEq, Repr

/-- Move construction (`moves.rs:21-29`): zero score delta, no flip recorded. -/
def Move.new (from_ to_ : MoveLocation) (cards : List Card) : Move :=
  { from_ := from_, to_ := to_, cards := cards, score_change := 0,
    flipped_card := none }

/-- Destination-side half of `Move::is_valid` (`moves.rs:120-149`), reached
with the nonempty list of source cards.  The board always has its 7 tableau
columns and 4 foundations in every state the program builds, so after the
explicit `col >= 7` / `idx >= 4` bounds checks the inner legality calls
return `some`; comparison with `some true` reproduces the Rust result. -/
def Move.valid_dest (m : Move) (b : Board) : List Card → Bool
  | [] => false
  | c0 :: rest =>
    if !(c0 :: rest).all (fun c => c.face_up) then false
    else
      match m.to_.pile_type with
      | .Tableau =>
        if 7 ≤ m.to_.pile_index then false
        else b.is_valid_tableau_move c0 m.to_.pile_index == some true
      | .Foundation =>
        if (c0 :: rest).length ≠ 1 then false
        else if 4 ≤ m.to_.pile_index then false
        else b.is_valid_foundation_move c0 m.to_.pile_index == some true
      | _ => false

/-- Move validation (`moves.rs:95-150`): source side first (bounds checks,
non-emptiness, all cards face up), then the destination rules. -/
def Move.is_valid (m : Move) (b : Board) : Bool :=
  match m.from_.pile_type with
  | .Tableau =>
    let col := m.from_.pile_index
    if 7 ≤ col || (b.tableau.getD col []).length ≤ m.from_.card_index then false
    else m.valid_dest b ((b.tableau.getD col []).drop m.from_.card_index)
  | .Waste =>
    match b.waste.getLast? with
    | some c => m.valid_dest b [c]
    | none => false
  | .Foundation =>
    if 4 ≤ m.from_.pile_index then false
    else
      match (b.foundations.getD m.from_.pile_index []).getLast? with
      | some c => m.valid_dest b [c]
      | none => false
  | .Stock => false

/-- Destination phase of `Move::execute` (`moves.rs:64-92`): append the moved
cards to the destination pile and set the base score delta; then, if a flip
was recorded, force the source column's top face up and add 5; finally add
the score delta and bump `move_count`.  The wildcard destination arm returns
failure with the source cards already drained, exactly as the Rust
`_ => return false` at `moves.rs:78` would (that arm is unreachable after
validation). -/
def Move.finish_execute (m : Move) (g1 : GameState) (b : Board)
    (cards_to_move : List Card) : Bool × Move × GameState :=
  let step :=
    match m.to_.pile_type with
    | .Tableau =>
      let newTab := b.tableau.set m.to_.pile_index
        ((b.tableau.getD m.to_.pile_index []) ++ cards_to_move)
      some ({ m with score_change := 5 }, { b with tableau := newTab })
    | .Foundation =>
      let newF := b.foundations.set m.to_.pile_index
        ((b.foundations.getD m.to_.pile_index []) ++ cards_to_move)
      some ({ m with score_change := 10 }, { b with foundations := newF })
    | _ => none
  match step with
  | none => (false, m, { g1 with board := b })
  | some (m1, b1) =>
    let flipStep :=
      match m1.flipped_card with
      | some (col, _) =>
        match (b1.tableau.getD col []).getLast? with
        | some last =>
          let newTab := b1.tableau.set col
            ((b1.tableau.getD col []).dropLast ++ [{ last with face_up := true }])
          ({ m1 with score_change := m1.score_change + 5 },
           { b1 with tableau := newTab })
        | none => (m1, b1)
      | none => (m1, b1)
    let m2 := flipStep.1
    let b2 := flipStep.2
    let b3 := { b2 with score := b2.score + m2.score_change,
                        move_count := b2.move_count + 1 }
    (true, m2, { g1 with board := b3 })

/-- Move execution (`moves.rs:31-93`): validate, snapshot, drain the source
run (recording a pending flip for a tableau source whose card below the run
is face down), then hand over to the destination phase.  The `unwrap` calls
on the waste/foundation pops are guarded by validation; the corresponding
`none` arms here are unreachable and return failure. -/
def Move.execute (m : Move) (g : GameState) : Bool × Move × GameState :=
  if !m.is_valid g.board then (false, m, g)
  else
    let g1 := g.save_undo_state
    let b := g1.board
    match m.from_.pile_type with
    | .Tableau =>
      let col := m.from_.pile_index
      let from_idx := m.from_.card_index
      let m1 :=
        if 0 < from_idx then
          match (b.tableau.getD col []).get? (from_idx - 1) with
          | some card_below =>
            if !card_below.face_up then { m with flipped_card := some (col, card_below) }
            else m
          | none => m
        else m
      m1.finish_execute g1
        { b with tableau := b.tableau.set col ((b.tableau.getD col []).take from_idx) }
        ((b.tableau.getD col []).drop from_idx)
    | .Waste =>
      match b.waste.getLast? with
      | some c => m.finish_execute g1 { b with waste := b.waste.dropLast } [c]
      | none => (false, m, g1)
    | .Foundation =>
      match (b.foundations.getD m.from_.pile_index []).getLast? with
      | some c =>
        let newF := b.foundations.set m.from_.pile_index
          ((b.foundations.getD m.from_.pile_index []).dropLast)
        m.finish_execute g1 { b with foundations := newF } [c]
      | none => (false, m, g1)
    | .Stock => (false, m, g1)

/-- Specification-side description of a successful move, written from claim
C5's words (not from the code): push an undo snapshot; remove the whole run
from the source pile atomically (for a Tableau source, all cards from the
offset to the end; for Waste/Foundation, the single top card); append the
removed cards to the destination pile in the same relative order; if the
source was a Tableau column whose newly exposed top card is face down, flip
it face up and add a +5 flip bonus; add a base score delta of +5 for a
Tableau destination or +10 for a Foundation destination; and increment the
move count by 1. -/
def execSpec (m : Move) (g : GameState) : GameState :=
  let b := g.board
  let run : List Card :=
    match m.from_.pile_type with
    | PileType.Tableau => (b.tableau.getD m.from_.pile_index []).drop m.from_.card_index
    | PileType.Waste =>
      match b.waste.getLast? with
      | some c => [c]
      | none => []
    | PileType.Foundation =>
      match (b.foundations.getD m.from_.pile_index []).getLast? with
      | some c => [c]
      | none => []
    | PileType.Stock => []
  let b1 : Board :=
    match m.from_.pile_type with
    | PileType.Tableau => { b with tableau := b.tableau.set m.from_.pile_index ((b.tableau.getD m.from_.pile_index []).take m.from_.card_index) }
    | PileType.Waste => { b with waste := b.waste.dropLast }
    | PileType.Foundation => { b with foundations := b.foundations.set m.from_.pile_index ((b.foundations.getD m.from_.pile_index []).dropLast) }
    | PileType.Stock => b
  let b2 : Board :=
    match m.to_.pile_type with
    | PileType.Tableau => { b1 with tableau := b1.tableau.set m.to_.pile_index ((b1.tableau.getD m.to_.pile_index []) ++ run) }
    | PileType.Foundation => { b1 with foundations := b1.foundations.set m.to_.pile_index ((b1.foundations.getD m.to_.pile_index []) ++ run) }
    | _ => b1
  let flip : Board × Int :=
    match m.from_.pile_type with
    | PileType.Tableau =>
      match (b1.tableau.getD m.from_.pile_index []).getLast? with
      | some top =>
        if top.face_up then (b2, 0)
        else ({ b2 with tableau := b2.tableau.set m.from_.pile_index ((b2.tableau.getD m.from_.pile_index []).dropLast ++ [{ top with face_up := true }]) }, 5)
      | none => (b2, 0)
    | _ => (b2, 0)
  let base : Int :=
    match m.to_.pile_type with
    | PileType.Tableau => 5
    | PileType.Foundation => 10
    | _ => 0
  let g1 := g.save_undo_state
  { g1 with board := { flip.1 with score := flip.1.score + base + flip.2, move_count := flip.1.move_count + 1 } }


/-! ### Card conservation: counting machinery -/

/-- The identity of a card, ignoring its orientation. -/
def cardKey (c : Card) : Suit × Rank := (c.suit, c.rank)

/-- Number of cards with identity `k` in a pile. -/
def pileCount (k : Suit × Rank) (l : List Card) : Nat :=
  l.countP fun c => cardKey c == k

/-- Number of cards with identity `k` across a list of piles. -/
def colsCount (k : Suit × Rank) (ls : List (List Card)) : Nat :=
  (ls.map (pileCount k)).sum

/-- Number of cards with identity `k` across all 12 piles of a board. -/
def keyCount (b : Board) (k : Suit × Rank) : Nat :=
  colsCount k b.tableau + pileCount k b.stock + pileCount k b.waste +
    colsCount k b.foundations

/-- The conservation property of claim C1: every one of the 52 suit-rank
identities occurs exactly once across the 12 piles (no duplicates, no
omissions). -/
def conserved (b : Board) : Prop := ∀ k : Suit × Rank, keyCount b k = 1

instance (b : Board) : Decidable (conserved b) :=
  inferInstanceAs (Decidable (∀ k : Suit × Rank, keyCount b k = 1))

/-- Structural shape every state built by the program has: seven tableau
columns and four foundations. -/
def BWF (b : Board) : Prop := b.tableau.length = 7 ∧ b.foundations.length = 4

/-- Well-formed and conserving board. -/
def BInv (b : Board) : Prop := BWF b ∧ conserved b

/-- The full invariant: the live board and every snapshot on the undo stack
are well-formed and conserve the 52 cards. -/
def GInv (g : GameState) : Prop := BInv g.board ∧ ∀ b ∈ g.undo_stack, BInv b

/-- One engine operation of the kinds named by claim C1: draw, move
execution, undo, single auto-move, one auto-complete invocation, and the
draw-count toggle. -/
inductive Step : GameState → GameState → Prop
  | draw (g : GameState) : Step g g.draw_from_stock
  | move (g : GameState) (m : Move) : Step g ((m.execute g)).2.2
  | moveUndo (g : GameState) : Step g (g.undo).2
  | autoMove (g : GameState) : Step g (g.auto_move_to_foundation).2
  | autoStep (g : GameState) : Step g (auto_complete g).2
  | toggle (g : GameState) : Step g g.toggle_draw_count

/-- States reachable from a fresh deal by engine operations. -/
inductive Reachable : GameState → Prop
  | init (deck : List Card) (h : deck.Perm create_standard_deck) :
      Reachable (GameState.new deck)
  | step {g g' : GameState} (hr : Reachable g) (hs : Step g g') : Reachable g'

lemma pileCount_append (k : Suit × Rank) (l₁ l₂ : List Card) :
    pileCount k (l₁ ++ l₂) = pileCount k l₁ + pileCount k l₂ := by
  simp [pileCount, List.countP_append]

lemma pileCount_reverse (k : Suit × Rank) (l : List Card) :
    pileCount k l.reverse = pileCount k l := by
  simp [pileCount]

lemma pileCount_map_face_up (k : Suit × Rank) (l : List Card) (u : Bool) :
    pileCount k (l.map fun c => { c with face_up := u }) = pileCount k l := by
  simp [pileCount, List.countP_map]
  rfl

lemma pileCount_take_drop (k : Suit × Rank) (l : List Card) (n : Nat) :
    pileCount k (l.take n) + pileCount k (l.drop n) = pileCount k l := by
  rw [← pileCount_append, List.take_append_drop]

lemma pileCount_take_add (k : Suit × Rank) (l : List Card) (a b : Nat) :
    pileCount k (l.take (a + b)) =
      pileCount k (l.take a) + pileCount k ((l.drop a).take b) := by
  rw [List.take_add, pileCount_append]

/-- Decompose a list ending in its last element. -/
lemma getLast?_decomp {α : Type} {l : List α} {c : α} (h : l.getLast? = some c) :
    l = l.dropLast ++ [c] :=
  (List.dropLast_append_getLast? c (by simp [h])).symm

/-- Replacing pile `i` changes the total count by swapping the old pile's
contribution for the new one. -/
lemma colsCount_set (k : Suit × Rank) (ls : List (List Card)) (i : Nat)
    (x : List Card) (hi : i < ls.length) :
    colsCount k (ls.set i x) + pileCount k (ls.getD i []) =
      colsCount k ls + pileCount k x := by
  induction ls generalizing i with
  | nil => simp at hi
  | cons hd tl ih =>
    cases i with
    | zero =>
      simp [colsCount, List.set]
      omega
    | succ n =>
      have hn : n < tl.length := by simpa using hi
      have h2 := ih n hn
      simp only [colsCount, List.set, List.map, List.sum_cons] at h2 ⊢
      have h3 : (hd :: tl).getD (n + 1) [] = tl.getD n [] := by
        simp [List.getD]
      rw [h3]
      omega

/-! ### Easy functional claims -/

/-- C2: for every game state and every move that validation rejects,
executing the move returns false and leaves the state exactly unchanged —
no pile, score, move count, or selection is modified, and no undo snapshot
is pushed (the whole `GameState`, history included, is returned as it was). -/
theorem invalid_move_execute_is_noop (m : Move) (g : GameState)
    (h : m.is_valid g.board = false) :
    m.execute g = (false, m, g) := by
  simp [Move.execute, h]

/-- Witness for C2: a draw-from-stock "move" is always invalid and executing
it on a freshly dealt game changes nothing. -/
theorem invalid_move_execute_is_noop_witness :
    (Move.new ⟨PileType.Stock, 0, 0⟩ ⟨PileType.Tableau, 0, 0⟩ []).is_valid
        (GameState.new create_standard_deck).board = false ∧
      (Move.new ⟨PileType.Stock, 0, 0⟩ ⟨PileType.Tableau, 0, 0⟩ []).execute
        (GameState.new create_standard_deck) =
        (false, Move.new ⟨PileType.Stock, 0, 0⟩ ⟨PileType.Tableau, 0, 0⟩ [],
          GameState.new create_standard_deck) :=
  ⟨rfl, invalid_move_execute_is_noop _ _ rfl⟩

/-- C3: a snapshot immediately followed by undo succeeds and restores the
exact prior board (tableau, stock, waste, foundations, score, move count,
draw count and selection), keeping the pre-undo history minus the popped
snapshot rather than any history of the snapshot itself; and undo on an
empty history returns false and changes nothing. -/
theorem save_then_undo_roundtrip (g : GameState) :
    (g.save_undo_state.undo).1 = true ∧
      (g.save_undo_state.undo).2.board = g.board ∧
      (g.save_undo_state.undo).2.undo_stack = g.save_undo_state.undo_stack.dropLast ∧
      (g.undo_stack = [] → g.undo = (false, g)) := by
  refine ⟨?_, ?_, ?_, ?_⟩
  · simp [GameState.save_undo_state, GameState.undo]
  · simp [GameState.save_undo_state, GameState.undo]
  · simp [GameState.save_undo_state, GameState.undo]
  · intro h
    simp [GameState.undo, h]

/-- Witness for C3 at a freshly dealt state (whose history is empty, so the
final clause also fires). -/
theorem save_then_undo_roundtrip_witness :
    ((GameState.new create_standard_deck).save_undo_state.undo).1 = true ∧
      ((GameState.new create_standard_deck).save_undo_state.undo).2.board =
        (GameState.new create_standard_deck).board ∧
      ((GameState.new create_standard_deck).save_undo_state.undo).2.undo_stack =
        (GameState.new create_standard_deck).save_undo_state.undo_stack.dropLast ∧
      (GameState.new create_standard_deck).undo =
        (false, GameState.new create_standard_deck) := by
  have h := save_then_undo_roundtrip (GameState.new create_standard_deck)
  exact ⟨h.1, h.2.1, h.2.2.1, h.2.2.2 rfl⟩

/-- C4: with an empty stock and a non-empty waste, drawing first records an
undo snapshot of the pre-draw board, moves the whole waste back onto the
stock in reverse order with every card face down, empties the waste, floors
the -20 recycle penalty at 0, bumps the move count by exactly one, and
touches no other pile. -/
theorem draw_recycles_waste (g : GameState)
    (hs : g.board.stock = []) (hw : g.board.waste ≠ []) :
    g.draw_from_stock.undo_stack =
        (if 100 ≤ g.undo_stack.length then g.undo_stack.drop 1 else g.undo_stack)
          ++ [g.board] ∧
      g.draw_from_stock.board.stock =
        g.board.waste.reverse.map (fun (c : Card) => { c with face_up := false }) ∧
      g.draw_from_stock.board.waste = [] ∧
      g.draw_from_stock.board.score = max (g.board.score - 20) 0 ∧
      g.draw_from_stock.board.move_count = g.board.move_count + 1 ∧
      g.draw_from_stock.board.tableau = g.board.tableau ∧
      g.draw_from_stock.board.foundations = g.board.foundations ∧
      g.draw_from_stock.board.selected_card = g.board.selected_card ∧
      g.draw_from_stock.board.draw_count = g.board.draw_count := by
  refine ⟨?_, ?_, ?_, ?_, ?_, ?_, ?_, ?_, ?_⟩ <;>
    simp [GameState.draw_from_stock, GameState.save_undo_state, hs]

/-- Witness for C4: a hand-built state with an empty stock and a five-card
waste (the spec's Scenario C). -/
theorem draw_recycles_waste_witness :
    ({ board :=
        { tableau := [[], [], [], [], [], [], []],
          stock := [],
          waste := [Card.new Suit.Hearts Rank.Ace, Card.new Suit.Spades Rank.Two,
            Card.new Suit.Clubs Rank.Three, Card.new Suit.Diamonds Rank.Four,
            Card.new Suit.Hearts Rank.Five],
          foundations := [[], [], [], []],
          selected_card := none, move_count := 3, score := 7, draw_count := 3 },
       undo_stack := [] } : GameState).board.stock = [] ∧
    ({ board :=
        { tableau := [[], [], [], [], [], [], []],
          stock := [],
          waste := [Card.new Suit.Hearts Rank.Ace, Card.new Suit.Spades Rank.Two,
            Card.new Suit.Clubs Rank.Three, Card.new Suit.Diamonds Rank.Four,
            Card.new Suit.Hearts Rank.Five],
          foundations := [[], [], [], []],
          selected_card := none, move_count := 3, score := 7, draw_count := 3 },
       undo_stack := [] } : GameState).draw_from_stock.board.score = 0 := by
  have h := draw_recycles_waste
    { board :=
        { tableau := [[], [], [], [], [], [], []],
          stock := [],
          waste := [Card.new Suit.Hearts Rank.Ace, Card.new Suit.Spades Rank.Two,
            Card.new Suit.Clubs Rank.Three, Card.new Suit.Diamonds Rank.Four,
            Card.new Suit.Hearts Rank.Five],
          foundations := [[], [], [], []],
          selected_card := none, move_count := 3, score := 7, draw_count := 3 },
      undo_stack := [] } rfl (by decide)
  refine ⟨rfl, ?_⟩
  rw [h.2.2.2.1]
  rfl

/-- C10: drawing with both stock and waste empty is not a no-op — it still
pushes an undo snapshot, still applies the -20 recycle penalty floored at 0,
and still bumps the move count, while every pile stays as it was (stock and
waste stay empty, tableau and foundations untouched). -/
theorem draw_on_empty_stock_and_waste (g : GameState)
    (hs : g.board.stock = []) (hw : g.board.waste = []) :
    g.draw_from_stock.undo_stack =
        (if 100 ≤ g.undo_stack.length then g.undo_stack.drop 1 else g.undo_stack)
          ++ [g.board] ∧
      g.draw_from_stock.board.stock = [] ∧
      g.draw_from_stock.board.waste = [] ∧
      g.draw_from_stock.board.score = max (g.board.score - 20) 0 ∧
      g.draw_from_stock.board.move_count = g.board.move_count + 1 ∧
      g.draw_from_stock.board.tableau = g.board.tableau ∧
      g.draw_from_stock.board.foundations = g.board.foundations := by
  refine ⟨?_, ?_, ?_, ?_, ?_, ?_, ?_⟩ <;>
    simp [GameState.draw_from_stock, GameState.save_undo_state, hs, hw]

/-- Witness for C10: an all-empty board with score 5; the draw keeps every
pile empty, floors the score at 0, and bumps the move count. -/
theorem draw_on_empty_stock_and_waste_witness :
    ({ board :=
        { tableau := [[], [], [], [], [], [], []],
          stock := [], waste := [], foundations := [[], [], [], []],
          selected_card := none, move_count := 9, score := 5, draw_count := 1 },
       undo_stack := [] } : GameState).draw_from_stock.board.score = 0 ∧
    ({ board :=
        { tableau := [[], [], [], [], [], [], []],
          stock := [], waste := [], foundations := [[], [], [], []],
          selected_card := none, move_count := 9, score := 5, draw_count := 1 },
       undo_stack := [] } : GameState).draw_from_stock.board.move_count = 10 := by
  have h := draw_on_empty_stock_and_waste
    { board :=
        { tableau := [[], [], [], [], [], [], []],
          stock := [], waste := [], foundations := [[], [], [], []],
          selected_card := none, move_count := 9, score := 5, draw_count := 1 },
      undo_stack := [] } rfl rfl
  exact ⟨by rw [h.2.2.2.1]; rfl, by rw [h.2.2.2.2.1]⟩

/-! ### The deal (C6) -/

lemma standard_deck_length : create_standard_deck.length = 52 := by decide

lemma standard_deck_face_down : ∀ c ∈ create_standard_deck, c.face_up = false := by
  decide

/-- Cards of any shuffled deck are face down (the shuffle permutes the
freshly created deck, whose cards are all face down). -/
lemma perm_deck_face_down {deck : List Card} (h : deck.Perm create_standard_deck) :
    ∀ c ∈ deck, c.face_up = false := fun c hc =>
  standard_deck_face_down c (h.mem_iff.mp hc)

lemma perm_deck_length {deck : List Card} (h : deck.Perm create_standard_deck) :
    deck.length = 52 := by
  rw [h.length_eq, standard_deck_length]

/-- C6: dealing any permutation of the 52-card deck gives a triangular
tableau — column i holds exactly i+1 cards with precisely the last one face
up — the remaining 24 cards sit in the stock face down in deal order, and
waste, foundations, score and move count all start empty/zero. -/
theorem new_deal_layout (deck : List Card)
    (hperm : deck.Perm create_standard_deck) :
    (GameState.new deck).board.tableau.length = 7 ∧
      (∀ i, i < 7 → ∀ colCards,
        (GameState.new deck).board.tableau.get? i = some colCards →
          colCards.length = i + 1 ∧
            ∀ j c, colCards.get? j = some c → (c.face_up = true ↔ j = i)) ∧
      (GameState.new deck).board.stock = deck.drop 28 ∧
      (GameState.new deck).board.stock.length = 24 ∧
      (∀ c ∈ (GameState.new deck).board.stock, c.face_up = false) ∧
      (GameState.new deck).board.waste = [] ∧
      (GameState.new deck).board.foundations = List.replicate 4 [] ∧
      (GameState.new deck).board.score = 0 ∧
      (GameState.new deck).board.move_count = 0 := by
  have hlen : deck.length = 52 := perm_deck_length hperm
  have hdown : ∀ c ∈ deck, c.face_up = false := perm_deck_face_down hperm
  have hstock : (GameState.new deck).board.stock = deck.drop 28 := by
    show (deck.drop 28).take 24 = deck.drop 28
    apply List.take_of_length_le
    simp [hlen]
  refine ⟨rfl, ?_, hstock, ?_, ?_, rfl, rfl, rfl, rfl⟩
  · intro i hi colCards hcol
    have hT : i * (i + 1) / 2 + i + 1 ≤ 28 := by interval_cases i <;> norm_num
    have hcol2 : colCards =
        (deck.drop (i * (i + 1) / 2)).take i ++
          ((deck.drop (i * (i + 1) / 2 + i)).take 1).map
            (fun c => { c with face_up := true }) := by
      have : ((List.range 7).map fun col =>
          (deck.drop (col * (col + 1) / 2)).take col ++
            ((deck.drop (col * (col + 1) / 2 + col)).take 1).map
              (fun c => { c with face_up := true })).get? i =
          some ((deck.drop (i * (i + 1) / 2)).take i ++
            ((deck.drop (i * (i + 1) / 2 + i)).take 1).map
              (fun c => { c with face_up := true })) := by
        rw [List.get?_eq_getElem?, List.getElem?_map, List.getElem?_range hi]
        rfl
      have hcol' := hcol
      rw [GameState.new] at hcol'
      simp only at hcol'
      rw [this] at hcol'
      exact (Option.some_inj.mp hcol').symm
    have hlen1 : ((deck.drop (i * (i + 1) / 2)).take i).length = i := by
      simp [hlen]
      omega
    have hlen2 : ((deck.drop (i * (i + 1) / 2 + i)).take 1).length = 1 := by
      simp [hlen]
      omega
    constructor
    · rw [hcol2, List.length_append, hlen1, List.length_map, hlen2]
    · intro j c hjc
      rcases Nat.lt_trichotomy j i with hj | hj | hj
      · have : colCards.get? j = deck.get? (i * (i + 1) / 2 + j) := by
          rw [hcol2, List.get?_eq_getElem?, List.get?_eq_getElem?,
            List.getElem?_append_left (by rw [hlen1]; exact hj),
            List.getElem?_take_of_lt hj, List.getElem?_drop]
        rw [this] at hjc
        have hc : c ∈ deck := by
          have := List.getElem?_mem (List.get?_eq_getElem? .. ▸ hjc)
          exact this
        have := hdown c hc
        simp [this]
        omega
      · subst hj
        have : colCards.get? j =
            (((deck.drop (j * (j + 1) / 2 + j)).take 1).map
              (fun c => { c with face_up := true })).get? 0 := by
          rw [hcol2, List.get?_eq_getElem?, List.get?_eq_getElem?]
          rw [List.getElem?_append_right (by rw [hlen1])]
          rw [hlen1, Nat.sub_self]
        rw [this] at hjc
        have hd1 : (deck.drop (j * (j + 1) / 2 + j)).take 1 ≠ [] := by
          intro hnil
          have := congrArg List.length hnil
          rw [hlen2] at this
          simp at this
        obtain ⟨d, rest, hdr⟩ := List.exists_cons_of_ne_nil hd1
        rw [hdr] at hjc
        simp at hjc
        simp [← hjc]
      · have : colCards.get? j = none := by
          apply List.get?_eq_none.mpr
          rw [hcol2]
          simp [hlen1, hlen2]
          omega
        rw [this] at hjc
        exact absurd hjc (by simp)
  · rw [hstock]
    simp [hlen]
  · rw [hstock]
    intro c hc
    exact hdown c (List.mem_of_mem_drop hc)

/-- Witness for C6 at the identity permutation of the standard deck. -/
theorem new_deal_layout_witness :
    create_standard_deck.Perm create_standard_deck ∧
      (GameState.new create_standard_deck).board.stock.length = 24 ∧
      (GameState.new create_standard_deck).board.move_count = 0 := by
  have h := new_deal_layout create_standard_deck (List.Perm.refl _)
  exact ⟨List.Perm.refl _, h.2.2.2.1, h.2.2.2.2.2.2.2.2⟩

/-! ### Card conservation (C1): invariant and preservation lemmas -/

lemma pileCount_nil (k : Suit × Rank) : pileCount k [] = 0 := rfl

lemma pileCount_flip_singleton (k : Suit × Rank) (c : Card) (u : Bool) :
    pileCount k [{ c with face_up := u }] = pileCount k [c] := by
  simp [pileCount, cardKey, List.countP_cons]

/-- Replacing the last card by a reoriented copy does not change counts. -/
lemma pileCount_flip_last {l : List Card} {c : Card} (h : l.getLast? = some c)
    (u : Bool) (k : Suit × Rank) :
    pileCount k (l.dropLast ++ [{ c with face_up := u }]) = pileCount k l := by
  conv_rhs => rw [getLast?_decomp h]
  rw [pileCount_append, pileCount_append, pileCount_flip_singleton]

/-- A list is its dropLast plus its last-element count. -/
lemma pileCount_dropLast {l : List Card} {c : Card} (h : l.getLast? = some c)
    (k : Suit × Rank) :
    pileCount k l = pileCount k l.dropLast + pileCount k [c] := by
  conv_lhs => rw [getLast?_decomp h]
  rw [pileCount_append]

lemma mem_of_getLast? {α : Type} {l : List α} {a : α} (h : l.getLast? = some a) :
    a ∈ l := by
  rw [getLast?_decomp h]
  simp

lemma save_undo_board (g : GameState) : g.save_undo_state.board = g.board := rfl

lemma save_undo_stack_mem {g : GameState} {b : Board}
    (h : b ∈ g.save_undo_state.undo_stack) : b ∈ g.undo_stack ∨ b = g.board := by
  rw [GameState.save_undo_state] at h
  rcases List.mem_append.mp h with h1 | h1
  · split at h1
    · exact Or.inl (List.mem_of_mem_drop h1)
    · exact Or.inl h1
  · simp at h1
    exact Or.inr h1

lemma inv_save_undo {g : GameState} (h : GInv g) : GInv g.save_undo_state := by
  refine ⟨h.1, fun b hb => ?_⟩
  rcases save_undo_stack_mem hb with h1 | h1
  · exact h.2 b h1
  · rw [h1]
    exact h.1

lemma inv_toggle {g : GameState} (h : GInv g) : GInv g.toggle_draw_count := by
  obtain ⟨⟨⟨ht, hf⟩, hc⟩, hs⟩ := h
  exact ⟨⟨⟨ht, hf⟩, hc⟩, hs⟩

lemma inv_undo {g : GameState} (h : GInv g) : GInv (g.undo).2 := by
  rw [GameState.undo]
  cases hl : g.undo_stack.getLast? with
  | none => exact h
  | some prev =>
    refine ⟨h.2 prev (mem_of_getLast? hl), fun b hb => ?_⟩
    exact h.2 b (List.Sublist.mem hb (List.dropLast_sublist _))

/-- The board after a draw, in both branches. -/
lemma draw_board (g : GameState) :
    g.draw_from_stock.board =
      (if g.board.stock.isEmpty then
        { g.board with
            stock := g.board.stock ++
              (g.board.waste.reverse.map fun (c : Card) => { c with face_up := false }),
            waste := [],
            score := max (g.board.score - 20) 0,
            move_count := g.board.move_count + 1 }
      else
        { g.board with
            stock := g.board.stock.take
              (g.board.stock.length - min g.board.draw_count g.board.stock.length),
            waste := g.board.waste ++
              ((g.board.stock.drop
                  (g.board.stock.length - min g.board.draw_count g.board.stock.length)).reverse.map
                fun (c : Card) => { c with face_up := true }),
            move_count := g.board.move_count + 1 }) := by
  rw [GameState.draw_from_stock]
  by_cases hstock : g.board.stock.isEmpty <;> simp [hstock, GameState.save_undo_state]

lemma draw_stack (g : GameState) :
    g.draw_from_stock.undo_stack = g.save_undo_state.undo_stack := rfl

lemma inv_draw {g : GameState} (h : GInv g) : GInv g.draw_from_stock := by
  have hsave := inv_save_undo h
  obtain ⟨⟨⟨ht, hf⟩, hc⟩, _⟩ := h
  constructor
  · rw [draw_board]
    split
    · refine ⟨⟨ht, hf⟩, fun k => ?_⟩
      have hk := hc k
      rw [keyCount] at hk ⊢
      simp only [pileCount_append, pileCount_map_face_up, pileCount_reverse,
        pileCount_nil]
      omega
    · refine ⟨⟨ht, hf⟩, fun k => ?_⟩
      have hk := hc k
      have hsplit := pileCount_take_drop k g.board.stock
        (g.board.stock.length - min g.board.draw_count g.board.stock.length)
      rw [keyCount] at hk ⊢
      simp only [pileCount_append, pileCount_map_face_up, pileCount_reverse]
      omega
  · rw [draw_stack]
    exact hsave.2

lemma autoFoundationTarget_lt {b : Board} {card : Card} {f : Nat}
    (h : autoFoundationTarget b card = some f) : f < 4 :=
  List.mem_range.mp (List.mem_of_find?_eq_some h)

/-- What a successful tableau scan guarantees. -/
lemma autoTabScan_spec {b : Board} {cols : List Nat} {col : Nat} {card : Card}
    {f : Nat} (h : autoTabScan b cols = some (col, card, f)) :
    col ∈ cols ∧ (b.tableau.getD col []).getLast? = some card ∧
      card.face_up = true ∧ autoFoundationTarget b card = some f := by
  induction cols with
  | nil => simp [autoTabScan] at h
  | cons c rest ih =>
    rw [autoTabScan] at h
    cases hl : (b.tableau.getD c []).getLast? with
    | none =>
      rw [hl] at h
      have := ih h
      exact ⟨List.mem_cons_of_mem _ this.1, this.2⟩
    | some card0 =>
      rw [hl] at h
      dsimp only at h
      by_cases hface : card0.face_up
      · rw [if_pos hface] at h
        cases htgt : autoFoundationTarget b card0 with
        | none =>
          rw [htgt] at h
          have := ih h
          exact ⟨List.mem_cons_of_mem _ this.1, this.2⟩
        | some f0 =>
          rw [htgt] at h
          simp at h
          obtain ⟨h1, h2, h3⟩ := h
          subst h1; subst h2; subst h3
          exact ⟨List.mem_cons_self _ _, hl, hface, htgt⟩
      · rw [if_neg hface] at h
        have := ih h
        exact ⟨List.mem_cons_of_mem _ this.1, this.2⟩

lemma binv_applyWasteToFoundation {b : Board} {card : Card} {f : Nat}
    (hb : BInv b) (hlast : b.waste.getLast? = some card)
    (hf : f < b.foundations.length) :
    BInv (applyWasteToFoundation b card f) := by
  obtain ⟨⟨ht, hfnd⟩, hc⟩ := hb
  refine ⟨⟨?_, ?_⟩, fun k => ?_⟩
  · simpa [applyWasteToFoundation] using ht
  · simpa [applyWasteToFoundation] using hfnd
  · have hk := hc k
    have hset := colsCount_set k b.foundations f
      ((b.foundations.getD f []) ++ [card]) hf
    have hdrop := pileCount_dropLast hlast k
    rw [keyCount] at hk ⊢
    simp only [applyWasteToFoundation, pileCount_append] at *
    omega

lemma binv_applyTabToFoundation {b : Board} {col : Nat} {card : Card} {f : Nat}
    (hb : BInv b) (hlast : (b.tableau.getD col []).getLast? = some card)
    (hcol : col < b.tableau.length) (hf : f < b.foundations.length)
    (bonus : Int) :
    BInv (applyTabToFoundation b col card f bonus) := by
  obtain ⟨⟨ht, hfnd⟩, hc⟩ := hb
  refine ⟨⟨?_, ?_⟩, fun k => ?_⟩
  · simpa [applyTabToFoundation] using ht
  · simpa [applyTabToFoundation] using hfnd
  · have hk := hc k
    have hdrop := pileCount_dropLast hlast k
    -- the flipped replacement column counts like the plain dropLast column
    have hpceq : ∀ newCol : List Card,
        pileCount k ((match newCol.getLast? with
          | some top =>
            if top.face_up then (newCol, (0 : Int))
            else (newCol.dropLast ++ [{ top with face_up := true }], bonus)
          | none => (newCol, 0)).1) = pileCount k newCol := by
      intro newCol
      cases hl : newCol.getLast? with
      | none => rfl
      | some top =>
        dsimp only
        by_cases hface : top.face_up
        · simp [hface]
        · rw [if_neg hface]
          dsimp only
          exact pileCount_flip_last hl true k
    have hset1 := colsCount_set k b.tableau col
      ((match ((b.tableau.getD col []).dropLast).getLast? with
        | some top =>
          if top.face_up then ((b.tableau.getD col []).dropLast, (0 : Int))
          else (((b.tableau.getD col []).dropLast).dropLast ++
            [{ top with face_up := true }], bonus)
        | none => ((b.tableau.getD col []).dropLast, 0)).1) hcol
    have hset2 := colsCount_set k b.foundations f
      ((b.foundations.getD f []) ++ [card]) hf
    have hpc := hpceq ((b.tableau.getD col []).dropLast)
    rw [keyCount] at hk ⊢
    simp only [applyTabToFoundation, pileCount_append] at *
    omega

lemma inv_auto_move {g : GameState} (h : GInv g) :
    GInv (g.auto_move_to_foundation).2 := by
  have hsave := inv_save_undo h
  cases hw : g.board.waste.getLast? with
  | some card =>
    cases htgt : autoFoundationTarget g.board card with
    | some f =>
      have heq : (g.auto_move_to_foundation).2 =
          { g.save_undo_state with
              board := applyWasteToFoundation g.save_undo_state.board card f } := by
        simp [GameState.auto_move_to_foundation, hw, htgt]
      rw [heq]
      refine ⟨?_, hsave.2⟩
      exact binv_applyWasteToFoundation h.1 hw
        (by rw [save_undo_board, h.1.1.2]; exact autoFoundationTarget_lt htgt)
    | none =>
      cases hscan : autoTabScan g.board (List.range 7) with
      | some trip =>
        obtain ⟨col, card2, f⟩ := trip
        have heq : (g.auto_move_to_foundation).2 =
            { g.save_undo_state with
                board := applyTabToFoundation g.save_undo_state.board col card2 f 5 } := by
          simp [GameState.auto_move_to_foundation, hw, htgt, hscan]
        rw [heq]
        refine ⟨?_, hsave.2⟩
        obtain ⟨hmem, hlast, _, htgt2⟩ := autoTabScan_spec hscan
        exact binv_applyTabToFoundation h.1 hlast
          (by rw [h.1.1.1]; exact List.mem_range.mp hmem)
          (by rw [h.1.1.2]; exact autoFoundationTarget_lt htgt2) 5
      | none =>
        have heq : (g.auto_move_to_foundation).2 = g := by
          simp [GameState.auto_move_to_foundation, hw, htgt, hscan]
        rw [heq]
        exact h
  | none =>
    cases hscan : autoTabScan g.board (List.range 7) with
    | some trip =>
      obtain ⟨col, card2, f⟩ := trip
      have heq : (g.auto_move_to_foundation).2 =
          { g.save_undo_state with
              board := applyTabToFoundation g.save_undo_state.board col card2 f 5 } := by
        simp [GameState.auto_move_to_foundation, hw, hscan]
      rw [heq]
      refine ⟨?_, hsave.2⟩
      obtain ⟨hmem, hlast, _, htgt2⟩ := autoTabScan_spec hscan
      exact binv_applyTabToFoundation h.1 hlast
        (by rw [h.1.1.1]; exact List.mem_range.mp hmem)
        (by rw [h.1.1.2]; exact autoFoundationTarget_lt htgt2) 5
    | none =>
      have heq : (g.auto_move_to_foundation).2 = g := by
        simp [GameState.auto_move_to_foundation, hw, hscan]
      rw [heq]
      exact h

lemma inv_autoCompleteIter {g : GameState} (h : GInv g) :
    GInv (autoCompleteIter g).2 := by
  have hsave := inv_save_undo h
  cases hscan : autoTabScan g.board (List.range 7) with
  | some trip =>
    obtain ⟨col, card, f⟩ := trip
    have heq : (autoCompleteIter g).2 =
        { g.save_undo_state with
            board := applyTabToFoundation g.save_undo_state.board col card f 0 } := by
      simp [autoCompleteIter, hscan]
    rw [heq]
    refine ⟨?_, hsave.2⟩
    obtain ⟨hmem, hlast, _, htgt⟩ := autoTabScan_spec hscan
    exact binv_applyTabToFoundation h.1 hlast
      (by rw [h.1.1.1]; exact List.mem_range.mp hmem)
      (by rw [h.1.1.2]; exact autoFoundationTarget_lt htgt) 0
  | none =>
    cases hw : g.board.waste.getLast? with
    | some card =>
      cases htgt : autoFoundationTarget g.board card with
      | some f =>
        have heq : (autoCompleteIter g).2 =
            { g.save_undo_state with
                board := applyWasteToFoundation g.save_undo_state.board card f } := by
          simp [autoCompleteIter, hscan, hw, htgt]
        rw [heq]
        refine ⟨?_, hsave.2⟩
        exact binv_applyWasteToFoundation h.1 hw
          (by rw [save_undo_board, h.1.1.2]; exact autoFoundationTarget_lt htgt)
      | none =>
        have heq : (autoCompleteIter g).2 = g := by
          simp [autoCompleteIter, hscan, hw, htgt]
        rw [heq]
        exact h
    | none =>
      have heq : (autoCompleteIter g).2 = g := by
        simp [autoCompleteIter, hscan, hw]
      rw [heq]
      exact h

lemma inv_autoCompleteLoop {fuel : Nat} {g : GameState} {made : Bool}
    (h : GInv g) : GInv (autoCompleteLoop fuel g made).2 := by
  induction fuel generalizing g made with
  | zero => exact h
  | succ n ih =>
    rw [autoCompleteLoop]
    by_cases hr : (autoCompleteIter g).1
    · rw [if_pos hr]
      exact ih (inv_autoCompleteIter h)
    · rw [if_neg hr]
      exact inv_autoCompleteIter h

lemma inv_auto_complete {g : GameState} (h : GInv g) :
    GInv (auto_complete g).2 :=
  inv_autoCompleteLoop h

lemma getD_ne_nil_lt {ls : List (List Card)} {col : Nat}
    (h : ls.getD col [] ≠ []) : col < ls.length := by
  by_contra hcon
  push_neg at hcon
  rw [List.getD_eq_getElem?_getD, List.getElem?_eq_none (by omega)] at h
  simp at h

/-- What the destination half of validation guarantees. -/
lemma valid_dest_facts {m : Move} {b : Board} {cards : List Card}
    (h : m.valid_dest b cards = true) :
    (m.to_.pile_type = PileType.Tableau ∧ m.to_.pile_index < 7) ∨
      (m.to_.pile_type = PileType.Foundation ∧ m.to_.pile_index < 4) := by
  cases cards with
  | nil => simp [Move.valid_dest] at h
  | cons c0 rest =>
    rw [Move.valid_dest] at h
    split at h
    · exact absurd h (by simp)
    · cases hto : m.to_.pile_type <;> rw [hto] at h <;> dsimp only at h
      · by_cases h7 : 7 ≤ m.to_.pile_index
        · rw [if_pos h7] at h
          exact absurd h (by simp)
        · exact Or.inl ⟨rfl, by omega⟩
      · exact absurd h (by simp)
      · exact absurd h (by simp)
      · by_cases hlen : (c0 :: rest).length ≠ 1
        · rw [if_pos hlen] at h
          exact absurd h (by simp)
        · rw [if_neg hlen] at h
          by_cases h4 : 4 ≤ m.to_.pile_index
          · rw [if_pos h4] at h
            exact absurd h (by simp)
          · exact Or.inr ⟨rfl, by omega⟩

/-- What the source half of validation guarantees, by source kind. -/
lemma is_valid_facts {m : Move} {b : Board} (hv : m.is_valid b = true) :
    (m.from_.pile_type = PileType.Tableau ∧ m.from_.pile_index < 7 ∧
        m.from_.card_index < (b.tableau.getD m.from_.pile_index []).length ∧
        m.valid_dest b
          ((b.tableau.getD m.from_.pile_index []).drop m.from_.card_index) = true) ∨
      (m.from_.pile_type = PileType.Waste ∧
        ∃ c, b.waste.getLast? = some c ∧ m.valid_dest b [c] = true) ∨
      (m.from_.pile_type = PileType.Foundation ∧ m.from_.pile_index < 4 ∧
        ∃ c, (b.foundations.getD m.from_.pile_index []).getLast? = some c ∧
          m.valid_dest b [c] = true) := by
  rw [Move.is_valid] at hv
  cases hft : m.from_.pile_type <;> rw [hft] at hv <;> dsimp only at hv
  · split at hv
    · exact absurd hv (by simp)
    · rename_i hcond
      simp only [Bool.or_eq_true, not_or, decide_eq_true_eq] at hcond
      exact Or.inl ⟨rfl, by omega, by omega, hv⟩
  · exact absurd hv (by simp)
  · cases hl : b.waste.getLast? with
    | some c =>
      rw [hl] at hv
      exact Or.inr (Or.inl ⟨rfl, c, rfl, hv⟩)
    | none =>
      rw [hl] at hv
      exact absurd hv (by simp)
  · split at hv
    · exact absurd hv (by simp)
    · rename_i h4
      cases hl : (b.foundations.getD m.from_.pile_index []).getLast? with
      | some c =>
        rw [hl] at hv
        exact Or.inr (Or.inr ⟨rfl, by omega, c, rfl, hv⟩)
      | none =>
        rw [hl] at hv
        exact absurd hv (by simp)

lemma binv_same_piles {b b' : Board} (htab : b'.tableau = b.tableau)
    (hst : b'.stock = b.stock) (hwa : b'.waste = b.waste)
    (hfo : b'.foundations = b.foundations) (h : BInv b) : BInv b' := by
  obtain ⟨⟨h1, h2⟩, h3⟩ := h
  refine ⟨⟨by rw [htab]; exact h1, by rw [hfo]; exact h2⟩, fun k => ?_⟩
  have := h3 k
  rw [keyCount] at this ⊢
  rw [htab, hst, hwa, hfo]
  exact this

/-- The flip step of `Move::execute` never changes counts, lengths, or any
non-tableau pile. -/
lemma binv_flip_at {b1 : Board} (col : Nat)
    (hwf : b1.tableau.length = 7 ∧ b1.foundations.length = 4)
    (hcnt : ∀ k, keyCount b1 k = 1) :
    ∀ last, (b1.tableau.getD col []).getLast? = some last →
      (b1.tableau.set col ((b1.tableau.getD col []).dropLast ++ [{ last with face_up := true }])).length = 7 ∧
      ∀ k, keyCount { b1 with tableau := b1.tableau.set col ((b1.tableau.getD col []).dropLast ++ [{ last with face_up := true }]) } k = 1 := by
  intro last hgl
  have hlt : col < b1.tableau.length :=
    getD_ne_nil_lt (by intro hnil; rw [hnil] at hgl; simp at hgl)
  constructor
  · rw [List.length_set]
    exact hwf.1
  · intro k
    have hset := colsCount_set k b1.tableau col
      ((b1.tableau.getD col []).dropLast ++ [{ last with face_up := true }]) hlt
    have hpc := pileCount_flip_last hgl true k
    have := hcnt k
    rw [keyCount] at this ⊢
    dsimp only
    omega

lemma ginv_finish_execute {m : Move} {g1 : GameState} {b : Board}
    {cards : List Card}
    (hstack : ∀ bb ∈ g1.undo_stack, BInv bb)
    (ht : b.tableau.length = 7) (hf : b.foundations.length = 4)
    (hcnt : ∀ k, keyCount b k + pileCount k cards = 1)
    (hdest : (m.to_.pile_type = PileType.Tableau ∧ m.to_.pile_index < 7) ∨
      (m.to_.pile_type = PileType.Foundation ∧ m.to_.pile_index < 4)) :
    GInv (m.finish_execute g1 b cards).2.2 := by
  rcases hdest with ⟨hto, hlt⟩ | ⟨hto, hlt⟩
  · -- Tableau destination
    have hb1t : (b.tableau.set m.to_.pile_index ((b.tableau.getD m.to_.pile_index []) ++ cards)).length = 7 := by
      rw [List.length_set]
      exact ht
    have hb1wf : ({ b with tableau := b.tableau.set m.to_.pile_index ((b.tableau.getD m.to_.pile_index []) ++ cards) } : Board).tableau.length = 7 ∧ ({ b with tableau := b.tableau.set m.to_.pile_index ((b.tableau.getD m.to_.pile_index []) ++ cards) } : Board).foundations.length = 4 :=
      ⟨hb1t, hf⟩
    have hb1cnt : ∀ k, keyCount { b with tableau := b.tableau.set m.to_.pile_index ((b.tableau.getD m.to_.pile_index []) ++ cards) } k = 1 := by
      intro k
      have hset := colsCount_set k b.tableau m.to_.pile_index
        ((b.tableau.getD m.to_.pile_index []) ++ cards) (by rw [ht]; exact hlt)
      have hk := hcnt k
      rw [keyCount] at hk ⊢
      simp only [pileCount_append] at hset ⊢
      omega
    cases hfc : m.flipped_card with
    | none =>
      simp only [Move.finish_execute, hto, hfc]
      exact ⟨⟨⟨hb1t, hf⟩, hb1cnt⟩, hstack⟩
    | some pr =>
      obtain ⟨col, card0⟩ := pr
      simp only [Move.finish_execute, hto, hfc]
      split
      · rename_i last hgl
        have hflip := binv_flip_at col hb1wf hb1cnt last hgl
        exact ⟨⟨⟨hflip.1, hf⟩, hflip.2⟩, hstack⟩
      · exact ⟨⟨⟨hb1t, hf⟩, hb1cnt⟩, hstack⟩
  · -- Foundation destination
    have hb1f : (b.foundations.set m.to_.pile_index ((b.foundations.getD m.to_.pile_index []) ++ cards)).length = 4 := by
      rw [List.length_set]
      exact hf
    have hb1wf : ({ b with foundations := b.foundations.set m.to_.pile_index ((b.foundations.getD m.to_.pile_index []) ++ cards) } : Board).tableau.length = 7 ∧ ({ b with foundations := b.foundations.set m.to_.pile_index ((b.foundations.getD m.to_.pile_index []) ++ cards) } : Board).foundations.length = 4 :=
      ⟨ht, hb1f⟩
    have hb1cnt : ∀ k, keyCount { b with foundations := b.foundations.set m.to_.pile_index ((b.foundations.getD m.to_.pile_index []) ++ cards) } k = 1 := by
      intro k
      have hset := colsCount_set k b.foundations m.to_.pile_index
        ((b.foundations.getD m.to_.pile_index []) ++ cards) (by rw [hf]; exact hlt)
      have hk := hcnt k
      rw [keyCount] at hk ⊢
      simp only [pileCount_append] at hset ⊢
      omega
    cases hfc : m.flipped_card with
    | none =>
      simp only [Move.finish_execute, hto, hfc]
      exact ⟨⟨⟨ht, hb1f⟩, hb1cnt⟩, hstack⟩
    | some pr =>
      obtain ⟨col, card0⟩ := pr
      simp only [Move.finish_execute, hto, hfc]
      split
      · rename_i last hgl
        have hflip := binv_flip_at col hb1wf hb1cnt last hgl
        exact ⟨⟨⟨hflip.1, hb1f⟩, hflip.2⟩, hstack⟩
      · exact ⟨⟨⟨ht, hb1f⟩, hb1cnt⟩, hstack⟩

lemma inv_execute {m : Move} {g : GameState} (h : GInv g) :
    GInv (m.execute g).2.2 := by
  by_cases hv : m.is_valid g.board = true
  case neg =>
    have hfalse : m.is_valid g.board = false := by
      revert hv
      cases m.is_valid g.board <;> simp
    have heq : m.execute g = (false, m, g) := by simp [Move.execute, hfalse]
    rw [heq]
    exact h
  case pos =>
    have hsave := inv_save_undo h
    obtain ⟨⟨⟨ht, hf⟩, hc⟩, _⟩ := h
    rcases is_valid_facts hv with ⟨hft, hlt, hidx, hdst⟩ | ⟨hft, c, hgl, hdst⟩ |
      ⟨hft, hlt, c, hgl, hdst⟩
    · -- Tableau source
      have hcnt : ∀ k, keyCount { g.board with tableau := g.board.tableau.set m.from_.pile_index ((g.board.tableau.getD m.from_.pile_index []).take m.from_.card_index) } k + pileCount k ((g.board.tableau.getD m.from_.pile_index []).drop m.from_.card_index) = 1 := by
        intro k
        have hset := colsCount_set k g.board.tableau m.from_.pile_index
          ((g.board.tableau.getD m.from_.pile_index []).take m.from_.card_index)
          (by rw [ht]; exact hlt)
        have hsplit := pileCount_take_drop k (g.board.tableau.getD m.from_.pile_index [])
          m.from_.card_index
        have hk := hc k
        rw [keyCount] at hk ⊢
        dsimp only
        omega
      have htlen : ({ g.board with tableau := g.board.tableau.set m.from_.pile_index ((g.board.tableau.getD m.from_.pile_index []).take m.from_.card_index) } : Board).tableau.length = 7 := by
        dsimp only
        rw [List.length_set]
        exact ht
      by_cases hpos : 0 < m.from_.card_index
      · cases hget : (g.board.tableau[m.from_.pile_index]?.getD [])[m.from_.card_index - 1]? with
        | some cb =>
          by_cases hcb : cb.face_up = true
          · have heq : (m.execute g).2.2 = (m.finish_execute g.save_undo_state { g.board with tableau := g.board.tableau.set m.from_.pile_index ((g.board.tableau.getD m.from_.pile_index []).take m.from_.card_index) } ((g.board.tableau.getD m.from_.pile_index []).drop m.from_.card_index)).2.2 := by
              simp [Move.execute, hv, save_undo_board, hft, hpos, hget, hcb]
            rw [heq]
            exact ginv_finish_execute hsave.2 htlen hf hcnt (valid_dest_facts hdst)
          · have hcb2 : cb.face_up = false := by
              revert hcb
              cases cb.face_up <;> simp
            have heq : (m.execute g).2.2 = (({ m with flipped_card := some (m.from_.pile_index, cb) } : Move).finish_execute g.save_undo_state { g.board with tableau := g.board.tableau.set m.from_.pile_index ((g.board.tableau.getD m.from_.pile_index []).take m.from_.card_index) } ((g.board.tableau.getD m.from_.pile_index []).drop m.from_.card_index)).2.2 := by
              simp [Move.execute, hv, save_undo_board, hft, hpos, hget, hcb2]
            rw [heq]
            exact ginv_finish_execute hsave.2 htlen hf hcnt (valid_dest_facts hdst)
        | none =>
          have heq : (m.execute g).2.2 = (m.finish_execute g.save_undo_state { g.board with tableau := g.board.tableau.set m.from_.pile_index ((g.board.tableau.getD m.from_.pile_index []).take m.from_.card_index) } ((g.board.tableau.getD m.from_.pile_index []).drop m.from_.card_index)).2.2 := by
            simp [Move.execute, hv, save_undo_board, hft, hpos, hget]
          rw [heq]
          exact ginv_finish_execute hsave.2 htlen hf hcnt (valid_dest_facts hdst)
      · have heq : (m.execute g).2.2 = (m.finish_execute g.save_undo_state { g.board with tableau := g.board.tableau.set m.from_.pile_index ((g.board.tableau.getD m.from_.pile_index []).take m.from_.card_index) } ((g.board.tableau.getD m.from_.pile_index []).drop m.from_.card_index)).2.2 := by
          simp [Move.execute, hv, save_undo_board, hft, hpos]
        rw [heq]
        exact ginv_finish_execute hsave.2 htlen hf hcnt (valid_dest_facts hdst)
    · -- Waste source
      have hcnt : ∀ k, keyCount { g.board with waste := g.board.waste.dropLast } k + pileCount k [c] = 1 := by
        intro k
        have hdrop := pileCount_dropLast hgl k
        have hk := hc k
        rw [keyCount] at hk ⊢
        dsimp only
        omega
      have heq : (m.execute g).2.2 = (m.finish_execute g.save_undo_state { g.board with waste := g.board.waste.dropLast } [c]).2.2 := by
        simp [Move.execute, hv, save_undo_board, hft, hgl]
      rw [heq]
      exact ginv_finish_execute hsave.2 ht hf hcnt (valid_dest_facts hdst)
    · -- Foundation source
      have hcnt : ∀ k, keyCount { g.board with foundations := g.board.foundations.set m.from_.pile_index ((g.board.foundations.getD m.from_.pile_index []).dropLast) } k + pileCount k [c] = 1 := by
        intro k
        have hset := colsCount_set k g.board.foundations m.from_.pile_index
          ((g.board.foundations.getD m.from_.pile_index []).dropLast)
          (by rw [hf]; exact hlt)
        have hdrop := pileCount_dropLast hgl k
        have hk := hc k
        rw [keyCount] at hk ⊢
        dsimp only
        omega
      have hflen : ({ g.board with foundations := g.board.foundations.set m.from_.pile_index ((g.board.foundations.getD m.from_.pile_index []).dropLast) } : Board).foundations.length = 4 := by
        dsimp only
        rw [List.length_set]
        exact hf
      have hgl2 := hgl
      rw [List.getD_eq_getElem?_getD] at hgl2
      have heq : (m.execute g).2.2 = (m.finish_execute g.save_undo_state { g.board with foundations := g.board.foundations.set m.from_.pile_index ((g.board.foundations.getD m.from_.pile_index []).dropLast) } [c]).2.2 := by
        simp [Move.execute, hv, save_undo_board, hft, hgl2]
      rw [heq]
      exact ginv_finish_execute hsave.2 ht hflen hcnt (valid_dest_facts hdst)

lemma standard_deck_counts : ∀ k : Suit × Rank, pileCount k create_standard_deck = 1 := by
  decide

/-- A freshly dealt game is well formed and conserves the 52 cards: the deal
just redistributes the deck (the 28 triangular tableau cards are the deck's
first 28 positions, the stock its last 24). -/
lemma ginv_new {deck : List Card} (hperm : deck.Perm create_standard_deck) :
    GInv (GameState.new deck) := by
  have hlen : deck.length = 52 := perm_deck_length hperm
  refine ⟨⟨⟨rfl, rfl⟩, fun k => ?_⟩, by simp [GameState.new]⟩
  have hdeck : pileCount k deck = 1 := by
    have := hperm.countP_eq (fun c => cardKey c == k)
    rw [pileCount, this]
    exact standard_deck_counts k
  have hstock : (deck.drop 28).take 24 = deck.drop 28 :=
    List.take_of_length_le (by simp [hlen])
  have hA := pileCount_take_drop k deck 28
  have h1 : pileCount k (deck.take 28) = pileCount k (deck.take 1) + pileCount k ((deck.drop 1).take 27) :=
    pileCount_take_add k deck 1 27
  have h2 : pileCount k ((deck.drop 1).take 27) = pileCount k ((deck.drop 1).take 1) + pileCount k ((deck.drop 2).take 26) := by
    have hstep := pileCount_take_add k (deck.drop 1) 1 26
    rw [List.drop_drop] at hstep
    exact hstep
  have h3 : pileCount k ((deck.drop 2).take 26) = pileCount k ((deck.drop 2).take 1) + pileCount k ((deck.drop 3).take 25) := by
    have hstep := pileCount_take_add k (deck.drop 2) 1 25
    rw [List.drop_drop] at hstep
    exact hstep
  have h4 : pileCount k ((deck.drop 3).take 25) = pileCount k ((deck.drop 3).take 2) + pileCount k ((deck.drop 5).take 23) := by
    have hstep := pileCount_take_add k (deck.drop 3) 2 23
    rw [List.drop_drop] at hstep
    exact hstep
  have h5 : pileCount k ((deck.drop 5).take 23) = pileCount k ((deck.drop 5).take 1) + pileCount k ((deck.drop 6).take 22) := by
    have hstep := pileCount_take_add k (deck.drop 5) 1 22
    rw [List.drop_drop] at hstep
    exact hstep
  have h6 : pileCount k ((deck.drop 6).take 22) = pileCount k ((deck.drop 6).take 3) + pileCount k ((deck.drop 9).take 19) := by
    have hstep := pileCount_take_add k (deck.drop 6) 3 19
    rw [List.drop_drop] at hstep
    exact hstep
  have h7 : pileCount k ((deck.drop 9).take 19) = pileCount k ((deck.drop 9).take 1) + pileCount k ((deck.drop 10).take 18) := by
    have hstep := pileCount_take_add k (deck.drop 9) 1 18
    rw [List.drop_drop] at hstep
    exact hstep
  have h8 : pileCount k ((deck.drop 10).take 18) = pileCount k ((deck.drop 10).take 4) + pileCount k ((deck.drop 14).take 14) := by
    have hstep := pileCount_take_add k (deck.drop 10) 4 14
    rw [List.drop_drop] at hstep
    exact hstep
  have h9 : pileCount k ((deck.drop 14).take 14) = pileCount k ((deck.drop 14).take 1) + pileCount k ((deck.drop 15).take 13) := by
    have hstep := pileCount_take_add k (deck.drop 14) 1 13
    rw [List.drop_drop] at hstep
    exact hstep
  have h10 : pileCount k ((deck.drop 15).take 13) = pileCount k ((deck.drop 15).take 5) + pileCount k ((deck.drop 20).take 8) := by
    have hstep := pileCount_take_add k (deck.drop 15) 5 8
    rw [List.drop_drop] at hstep
    exact hstep
  have h11 : pileCount k ((deck.drop 20).take 8) = pileCount k ((deck.drop 20).take 1) + pileCount k ((deck.drop 21).take 7) := by
    have hstep := pileCount_take_add k (deck.drop 20) 1 7
    rw [List.drop_drop] at hstep
    exact hstep
  have h12 : pileCount k ((deck.drop 21).take 7) = pileCount k ((deck.drop 21).take 6) + pileCount k ((deck.drop 27).take 1) := by
    have hstep := pileCount_take_add k (deck.drop 21) 6 1
    rw [List.drop_drop] at hstep
    exact hstep
  rw [keyCount]
  dsimp only [GameState.new]
  rw [hstock]
  simp only [List.range_succ, List.range_zero, List.map_nil, List.map_append,
    List.map_cons, colsCount, List.sum_append, List.sum_cons, List.sum_nil,
    pileCount_append, pileCount_map_face_up, pileCount_nil, List.append_nil]
  norm_num
  rw [← List.drop_one]
  have hp : pileCount k ([] : List Card) = 0 := rfl
  omega

lemma ginv_reachable {g : GameState} (h : Reachable g) : GInv g := by
  induction h with
  | init deck hperm => exact ginv_new hperm
  | step hr hs ih =>
    cases hs with
    | draw => exact inv_draw ih
    | move m => exact inv_execute ih
    | moveUndo => exact inv_undo ih
    | autoMove => exact inv_auto_move ih
    | autoStep => exact inv_auto_complete ih
    | toggle => exact inv_toggle ih

/-- C1: starting from a freshly dealt game, every engine operation
(drawFromStock, Move execute, undo, autoMoveToFoundation, an autoComplete
invocation, toggleDrawCount) preserves the property that the 12 piles
together hold each of the 52 suit-rank cards exactly once: every state
reachable through these operations satisfies `conserved`. -/
theorem cards_conserved (g : GameState) (h : Reachable g) :
    conserved g.board :=
  (ginv_reachable h).1.2

/-- Witness for C1: the fresh deal of the identity permutation is reachable
and conserves the 52 cards. -/
theorem cards_conserved_witness :
    Reachable (GameState.new create_standard_deck) ∧
      conserved (GameState.new create_standard_deck).board :=
  ⟨Reachable.init create_standard_deck (List.Perm.refl _),
    cards_conserved _ (Reachable.init create_standard_deck (List.Perm.refl _))⟩

/-! ### Move-count behavior (C9) -/

lemma finish_execute_mc (m : Move) (g1 : GameState) (b : Board)
    (cards : List Card) :
    b.move_count ≤ (m.finish_execute g1 b cards).2.2.board.move_count := by
  rw [Move.finish_execute]
  cases m.to_.pile_type <;> dsimp only
  case Tableau =>
    cases m.flipped_card with
    | none => dsimp only; omega
    | some pr =>
      obtain ⟨col, card0⟩ := pr
      dsimp only
      split <;> dsimp only <;> omega
  case Foundation =>
    cases m.flipped_card with
    | none => dsimp only; omega
    | some pr =>
      obtain ⟨col, card0⟩ := pr
      dsimp only
      split <;> dsimp only <;> omega
  case Stock => omega
  case Waste => omega

lemma finish_execute_mc' (m : Move) (g1 : GameState) (b : Board)
    (cards : List Card) (n : Nat) (h : n = b.move_count) :
    n ≤ (m.finish_execute g1 b cards).2.2.board.move_count :=
  h ▸ finish_execute_mc m g1 b cards

lemma execute_mc (m : Move) (g : GameState) :
    g.board.move_count ≤ (m.execute g).2.2.board.move_count := by
  rw [Move.execute]
  by_cases hv : m.is_valid g.board = true
  · simp only [hv, Bool.not_true, Bool.false_eq_true, if_false]
    cases m.from_.pile_type <;> dsimp only
    · exact finish_execute_mc' _ _ _ _ _ rfl
    · exact Nat.le_refl _
    · cases g.save_undo_state.board.waste.getLast? with
      | some c => exact finish_execute_mc' _ _ _ _ _ rfl
      | none => exact Nat.le_refl _
    · cases (g.save_undo_state.board.foundations.getD m.from_.pile_index []).getLast? with
      | some c => exact finish_execute_mc' _ _ _ _ _ rfl
      | none => exact Nat.le_refl _
  · have hfalse : m.is_valid g.board = false := by
      revert hv
      cases m.is_valid g.board <;> simp
    simp only [hfalse, Bool.not_false, if_true]
    exact Nat.le_refl _

lemma draw_mc (g : GameState) :
    g.draw_from_stock.board.move_count = g.board.move_count + 1 := by
  rw [draw_board]
  split <;> rfl

lemma auto_move_mc (g : GameState) :
    g.board.move_count ≤ (g.auto_move_to_foundation).2.board.move_count := by
  cases hw : g.board.waste.getLast? with
  | some card =>
    cases htgt : autoFoundationTarget g.board card with
    | some f =>
      have heq : (g.auto_move_to_foundation).2 =
          { g.save_undo_state with
              board := applyWasteToFoundation g.save_undo_state.board card f } := by
        simp [GameState.auto_move_to_foundation, hw, htgt]
      rw [heq]
      dsimp only [applyWasteToFoundation, save_undo_board]
      omega
    | none =>
      cases hscan : autoTabScan g.board (List.range 7) with
      | some trip =>
        obtain ⟨col, card2, f⟩ := trip
        have heq : (g.auto_move_to_foundation).2 =
            { g.save_undo_state with
                board := applyTabToFoundation g.save_undo_state.board col card2 f 5 } := by
          simp [GameState.auto_move_to_foundation, hw, htgt, hscan]
        rw [heq]
        dsimp only [applyTabToFoundation, save_undo_board]
        omega
      | none =>
        have heq : (g.auto_move_to_foundation).2 = g := by
          simp [GameState.auto_move_to_foundation, hw, htgt, hscan]
        rw [heq]
  | none =>
    cases hscan : autoTabScan g.board (List.range 7) with
    | some trip =>
      obtain ⟨col, card2, f⟩ := trip
      have heq : (g.auto_move_to_foundation).2 =
          { g.save_undo_state with
              board := applyTabToFoundation g.save_undo_state.board col card2 f 5 } := by
        simp [GameState.auto_move_to_foundation, hw, hscan]
      rw [heq]
      dsimp only [applyTabToFoundation, save_undo_board]
      omega
    | none =>
      have heq : (g.auto_move_to_foundation).2 = g := by
        simp [GameState.auto_move_to_foundation, hw, hscan]
      rw [heq]

lemma autoCompleteIter_mc (g : GameState) :
    g.board.move_count ≤ (autoCompleteIter g).2.board.move_count := by
  cases hscan : autoTabScan g.board (List.range 7) with
  | some trip =>
    obtain ⟨col, card, f⟩ := trip
    have heq : (autoCompleteIter g).2 =
        { g.save_undo_state with
            board := applyTabToFoundation g.save_undo_state.board col card f 0 } := by
      simp [autoCompleteIter, hscan]
    rw [heq]
    dsimp only [applyTabToFoundation, save_undo_board]
    omega
  | none =>
    cases hw : g.board.waste.getLast? with
    | some card =>
      cases htgt : autoFoundationTarget g.board card with
      | some f =>
        have heq : (autoCompleteIter g).2 =
            { g.save_undo_state with
                board := applyWasteToFoundation g.save_undo_state.board card f } := by
          simp [autoCompleteIter, hscan, hw, htgt]
        rw [heq]
        dsimp only [applyWasteToFoundation, save_undo_board]
        omega
      | none =>
        have heq : (autoCompleteIter g).2 = g := by
          simp [autoCompleteIter, hscan, hw, htgt]
        rw [heq]
    | none =>
      have heq : (autoCompleteIter g).2 = g := by
        simp [autoCompleteIter, hscan, hw]
      rw [heq]

lemma autoCompleteLoop_mc (fuel : Nat) (g : GameState) (made : Bool) :
    g.board.move_count ≤ (autoCompleteLoop fuel g made).2.board.move_count := by
  induction fuel generalizing g made with
  | zero => exact Nat.le_refl _
  | succ n ih =>
    rw [autoCompleteLoop]
    by_cases hr : (autoCompleteIter g).1
    · rw [if_pos hr]
      exact Nat.le_trans (autoCompleteIter_mc g) (ih _ _)
    · rw [if_neg hr]
      exact autoCompleteIter_mc g

/-- C9 (amended): `moveCount` never decreases under drawFromStock, move
execution, autoMoveToFoundation, or an autoComplete invocation; `undo`,
however, does not preserve monotonicity — it restores the popped snapshot's
(earlier) `moveCount` verbatim, and is a no-op only when the history is
empty. -/
theorem move_count_monotonic_except_undo :
    (∀ g : GameState, g.board.move_count ≤ g.draw_from_stock.board.move_count) ∧
      (∀ (m : Move) (g : GameState),
        g.board.move_count ≤ (m.execute g).2.2.board.move_count) ∧
      (∀ g : GameState,
        g.board.move_count ≤ (g.auto_move_to_foundation).2.board.move_count) ∧
      (∀ g : GameState,
        g.board.move_count ≤ (auto_complete g).2.board.move_count) ∧
      (∀ g : GameState, (g.undo).1 = false → (g.undo).2 = g) ∧
      (∀ (g : GameState) (b : Board), g.undo_stack.getLast? = some b →
        (g.undo).2.board.move_count = b.move_count) := by
  refine ⟨fun g => ?_, execute_mc, auto_move_mc, fun g => autoCompleteLoop_mc 100 g false, fun g => ?_, fun g b hb => ?_⟩
  · rw [draw_mc]
    omega
  · rw [GameState.undo]
    cases hl : g.undo_stack.getLast? with
    | some prev => intro hfalse; simp at hfalse
    | none => intro _; rfl
  · rw [GameState.undo, hb]

/-- Witness for C9's amended statement at concrete states: a fresh deal (for
the no-history undo clause) and a state holding one snapshot. -/
theorem move_count_monotonic_except_undo_witness :
    (GameState.new create_standard_deck).board.move_count ≤
        (GameState.new create_standard_deck).draw_from_stock.board.move_count ∧
      ((GameState.new create_standard_deck).undo).2 = GameState.new create_standard_deck ∧
      (((GameState.new create_standard_deck).save_undo_state).undo).2.board.move_count =
        (GameState.new create_standard_deck).board.move_count := by
  have h := move_count_monotonic_except_undo
  refine ⟨h.1 _, h.2.2.2.2.1 _ rfl, h.2.2.2.2.2 _ _ ?_⟩
  rfl

/-- Counterexample for C9 as frozen: from a fresh deal, one draw reaches a
state with moveCount 1 whose undo drops moveCount back to 0 — so undo is an
engine operation under which moveCount is not monotonic, even on reachable
states. -/
theorem move_count_undo_decreases :
    Reachable (GameState.new create_standard_deck).draw_from_stock ∧
      (((GameState.new create_standard_deck).draw_from_stock).undo).2.board.move_count <
        ((GameState.new create_standard_deck).draw_from_stock).board.move_count := by
  constructor
  · exact Reachable.step (Reachable.init _ (List.Perm.refl _)) (Step.draw _)
  · decide

/-! ### Auto-complete scoring (C7) -/

lemma getD_set_self {ls : List (List Card)} {i : Nat} (x : List Card)
    (h : i < ls.length) : (ls.set i x).getD i [] = x := by
  rw [List.getD_eq_getElem?_getD, List.getElem?_set_self']
  simp [List.getElem?_eq_getElem h]

lemma applyTabToFoundation_score (b : Board) (col : Nat) (card : Card)
    (f : Nat) :
    (applyTabToFoundation b col card f 0).score = b.score + 10 ∧
      (applyTabToFoundation b col card f 0).move_count = b.move_count + 1 := by
  rw [applyTabToFoundation]
  dsimp only
  cases hl : ((b.tableau.getD col []).dropLast).getLast? with
  | none =>
    dsimp only
    constructor
    · omega
    · rfl
  | some top =>
    dsimp only
    by_cases hface : top.face_up = true
    · rw [if_pos hface]
      dsimp only
      constructor
      · omega
      · rfl
    · rw [if_neg hface]
      dsimp only
      constructor
      · omega
      · rfl

/-- C7 (amended): every foundation move applied by an auto-complete
iteration adds exactly +10 to the score (and +1 to the move count) — the +5
flip bonus of a manual foundation move is never credited — although an
exposed face-down tableau top card is still turned face up. -/
theorem auto_complete_scores_ten_no_flip_bonus (g : GameState) :
    ((autoCompleteIter g).1 = true →
        (autoCompleteIter g).2.board.score = g.board.score + 10 ∧
        (autoCompleteIter g).2.board.move_count = g.board.move_count + 1) ∧
      (∀ col card f, autoTabScan g.board (List.range 7) = some (col, card, f) →
        ∀ top, ((g.board.tableau.getD col []).dropLast).getLast? = some top →
          ((autoCompleteIter g).2.board.tableau.getD col []).getLast? =
            some { top with face_up := true }) := by
  constructor
  · intro hmade
    cases hscan : autoTabScan g.board (List.range 7) with
    | some trip =>
      obtain ⟨col, card, f⟩ := trip
      have heq : (autoCompleteIter g).2 =
          { g.save_undo_state with
              board := applyTabToFoundation g.save_undo_state.board col card f 0 } := by
        simp [autoCompleteIter, hscan]
      rw [heq]
      exact applyTabToFoundation_score _ _ _ _
    | none =>
      cases hw : g.board.waste.getLast? with
      | some card =>
        cases htgt : autoFoundationTarget g.board card with
        | some f =>
          have heq : (autoCompleteIter g).2 =
              { g.save_undo_state with
                  board := applyWasteToFoundation g.save_undo_state.board card f } := by
            simp [autoCompleteIter, hscan, hw, htgt]
          rw [heq]
          exact ⟨rfl, rfl⟩
        | none =>
          have : (autoCompleteIter g).1 = false := by
            simp [autoCompleteIter, hscan, hw, htgt]
          rw [this] at hmade
          exact absurd hmade (by simp)
      | none =>
        have : (autoCompleteIter g).1 = false := by
          simp [autoCompleteIter, hscan, hw]
        rw [this] at hmade
        exact absurd hmade (by simp)
  · intro col card f hscan top htop
    obtain ⟨hmem, hlast, hface, htgt⟩ := autoTabScan_spec hscan
    have heq : (autoCompleteIter g).2 =
        { g.save_undo_state with
            board := applyTabToFoundation g.save_undo_state.board col card f 0 } := by
      simp [autoCompleteIter, hscan]
    rw [heq]
    have hcol : col < g.board.tableau.length := by
      apply getD_ne_nil_lt
      intro hnil
      rw [hnil] at hlast
      simp at hlast
    dsimp only [applyTabToFoundation, save_undo_board]
    rw [htop]
    dsimp only
    by_cases hup : top.face_up = true
    · rw [if_pos hup]
      dsimp only
      rw [getD_set_self _ hcol, htop]
      cases top
      simp at hup
      rw [hup]
    · rw [if_neg hup]
      dsimp only
      rw [getD_set_self _ hcol, List.getLast?_concat]

/-- Witness for C7's amended statement: a state with tableau column 0 holding
a face-down 5 of Hearts under a face-up Ace of Spades; the iteration applies
the Ace to a foundation for exactly +10 and flips the 5 face up. -/
theorem auto_complete_scores_ten_no_flip_bonus_witness :
    (autoCompleteIter (⟨⟨[[⟨Suit.Hearts, Rank.Five, false⟩, ⟨Suit.Spades, Rank.Ace, true⟩], [], [], [], [], [], []], [], [], [[], [], [], []], none, 0, 0, 3⟩, []⟩ : GameState)).1 = true ∧
      (autoCompleteIter (⟨⟨[[⟨Suit.Hearts, Rank.Five, false⟩, ⟨Suit.Spades, Rank.Ace, true⟩], [], [], [], [], [], []], [], [], [[], [], [], []], none, 0, 0, 3⟩, []⟩ : GameState)).2.board.score = 0 + 10 ∧
      ((autoCompleteIter (⟨⟨[[⟨Suit.Hearts, Rank.Five, false⟩, ⟨Suit.Spades, Rank.Ace, true⟩], [], [], [], [], [], []], [], [], [[], [], [], []], none, 0, 0, 3⟩, []⟩ : GameState)).2.board.tableau.getD 0 []).getLast? =
        some ⟨Suit.Hearts, Rank.Five, true⟩ := by
  have h := auto_complete_scores_ten_no_flip_bonus (⟨⟨[[⟨Suit.Hearts, Rank.Five, false⟩, ⟨Suit.Spades, Rank.Ace, true⟩], [], [], [], [], [], []], [], [], [[], [], [], []], none, 0, 0, 3⟩, []⟩ : GameState)
  have h1 := h.1 (by decide)
  have h2 := h.2 0 ⟨Suit.Spades, Rank.Ace, true⟩ 0 (by decide)
    ⟨Suit.Hearts, Rank.Five, false⟩ (by decide)
  exact ⟨by decide, h1.1, h2⟩

/-- Counterexample for C7 as frozen: on a single-move state (face-down 5 of
Hearts under a face-up Ace of Spades, empty foundations), `auto_complete`
(the autoCompleteStep entry point) makes the foundation move, flips the
exposed face-down card, yet scores only +10, while the manual-rules path
`auto_move_to_foundation` applies the identical foundation move for +15
(+10 move, +5 flip bonus) — so an auto-complete foundation move does not
score like a manual one. -/
theorem auto_complete_flip_bonus_missing :
    (auto_complete (⟨⟨[[⟨Suit.Hearts, Rank.Five, false⟩, ⟨Suit.Spades, Rank.Ace, true⟩], [], [], [], [], [], []], [], [], [[], [], [], []], none, 0, 0, 3⟩, []⟩ : GameState)).1 = true ∧
      (auto_complete (⟨⟨[[⟨Suit.Hearts, Rank.Five, false⟩, ⟨Suit.Spades, Rank.Ace, true⟩], [], [], [], [], [], []], [], [], [[], [], [], []], none, 0, 0, 3⟩, []⟩ : GameState)).2.board.tableau.getD 0 [] =
        [⟨Suit.Hearts, Rank.Five, true⟩] ∧
      (auto_complete (⟨⟨[[⟨Suit.Hearts, Rank.Five, false⟩, ⟨Suit.Spades, Rank.Ace, true⟩], [], [], [], [], [], []], [], [], [[], [], [], []], none, 0, 0, 3⟩, []⟩ : GameState)).2.board.score = 10 ∧
      ((⟨⟨[[⟨Suit.Hearts, Rank.Five, false⟩, ⟨Suit.Spades, Rank.Ace, true⟩], [], [], [], [], [], []], [], [], [[], [], [], []], none, 0, 0, 3⟩, []⟩ : GameState).auto_move_to_foundation).2.board.score = 15 := by
  refine ⟨?_, ?_, ?_, ?_⟩ <;> decide

/-! ### Out-of-range indices (C8) -/

/-- C8 (amended): `Move.is_valid` itself bounds-checks — any move whose
source or destination names a tableau index ≥ 7 or a foundation index ≥ 4
is reported illegal, and executing such a move fails with no state change.
However, the helper predicates `is_valid_tableau_move` and
`is_valid_foundation_move` do NOT bounds-check: called directly with an
out-of-range pile index they index the pile vector and panic (modelled by
`none`) instead of reporting the move illegal. -/
theorem out_of_range_bounds_checking :
    (∀ (m : Move) (b : Board),
      ((m.from_.pile_type = PileType.Tableau ∧ 7 ≤ m.from_.pile_index) ∨
        (m.from_.pile_type = PileType.Foundation ∧ 4 ≤ m.from_.pile_index) ∨
        (m.to_.pile_type = PileType.Tableau ∧ 7 ≤ m.to_.pile_index) ∨
        (m.to_.pile_type = PileType.Foundation ∧ 4 ≤ m.to_.pile_index)) →
      m.is_valid b = false) ∧
    (∀ (m : Move) (g : GameState), m.is_valid g.board = false →
      m.execute g = (false, m, g)) ∧
    (∀ (b : Board) (card : Card) (i : Nat), b.tableau.length ≤ i →
      b.is_valid_tableau_move card i = none) ∧
    (∀ (b : Board) (card : Card) (i : Nat), b.foundations.length ≤ i →
      b.is_valid_foundation_move card i = none) := by
  refine ⟨fun m b hoor => ?_, fun m g hv => by simp [Move.execute, hv],
    fun b card i hi => ?_, fun b card i hi => ?_⟩
  · by_cases hv : m.is_valid b = true
    · exfalso
      rcases is_valid_facts hv with ⟨hft, hlt, _, hdst⟩ | ⟨hft, c, _, hdst⟩ |
        ⟨hft, hlt, c, _, hdst⟩ <;>
        rcases valid_dest_facts hdst with ⟨hto, hlt2⟩ | ⟨hto, hlt2⟩ <;>
        rcases hoor with ⟨h1, h2⟩ | ⟨h1, h2⟩ | ⟨h1, h2⟩ | ⟨h1, h2⟩ <;>
        first
          | omega
          | (rw [h1] at hft; exact absurd hft (by simp))
          | (rw [h1] at hto; exact absurd hto (by simp))
    · revert hv
      cases m.is_valid b <;> simp
  · rw [Board.is_valid_tableau_move, List.get?_eq_getElem?,
      List.getElem?_eq_none hi]
  · rw [Board.is_valid_foundation_move, List.get?_eq_getElem?,
      List.getElem?_eq_none hi]

/-- Witness for C8's amended statement: a move naming tableau column 9 is
reported illegal and does not execute, while the unchecked helper called on
column 7 of a standard 7-column board faults (`none`) rather than answering
false. -/
theorem out_of_range_bounds_checking_witness :
    (Move.new ⟨PileType.Tableau, 9, 0⟩ ⟨PileType.Tableau, 0, 0⟩ []).is_valid
        (GameState.new create_standard_deck).board = false ∧
      (Move.new ⟨PileType.Tableau, 9, 0⟩ ⟨PileType.Tableau, 0, 0⟩ []).execute
        (GameState.new create_standard_deck) =
        (false, Move.new ⟨PileType.Tableau, 9, 0⟩ ⟨PileType.Tableau, 0, 0⟩ [],
          GameState.new create_standard_deck) ∧
      (GameState.new create_standard_deck).board.is_valid_tableau_move
        (Card.new Suit.Hearts Rank.King) 7 = none ∧
      (GameState.new create_standard_deck).board.is_valid_foundation_move
        (Card.new Suit.Hearts Rank.Ace) 4 = none := by
  have h := out_of_range_bounds_checking
  refine ⟨?_, ?_, ?_, ?_⟩
  · exact h.1 _ _ (Or.inl ⟨rfl, by decide⟩)
  · exact h.2.1 _ _ (h.1 _ _ (Or.inl ⟨rfl, by decide⟩))
  · exact h.2.2.1 _ _ _ (by decide)
  · exact h.2.2.2 _ _ _ (by decide)

/-- Counterexample for C8 as frozen: on a freshly dealt board,
`is_valid_tableau_move` with column index 7 (and `is_valid_foundation_move`
with foundation index 4) does not report the move illegal — it faults
(`none`, the Rust index-out-of-bounds panic) rather than returning false. -/
theorem helper_validators_fault_out_of_range :
    (GameState.new create_standard_deck).board.is_valid_tableau_move
        (Card.new Suit.Hearts Rank.King) 7 = none ∧
      (GameState.new create_standard_deck).board.is_valid_tableau_move
        (Card.new Suit.Hearts Rank.King) 7 ≠ some false ∧
      (GameState.new create_standard_deck).board.is_valid_foundation_move
        (Card.new Suit.Hearts Rank.Ace) 4 = none ∧
      (GameState.new create_standard_deck).board.is_valid_foundation_move
        (Card.new Suit.Hearts Rank.Ace) 4 ≠ some false := by
  refine ⟨?_, ?_, ?_, ?_⟩ <;> decide

/-! ### Successful move execution (C5) -/

lemma take_getLast {l : List Card} {idx : Nat} (hpos : 0 < idx)
    (hlt : idx ≤ l.length) : (l.take idx).getLast? = l[idx - 1]? := by
  rw [List.getLast?_eq_getElem?]
  rw [List.length_take, Nat.min_eq_left hlt]
  rw [List.getElem?_take_of_lt (by omega)]

/-- C5 (amended): a valid move whose source and destination are not the same
tableau column executes successfully and does exactly what the claim says —
snapshot, atomic removal of the run, in-order append to the destination,
conditional flip of the newly exposed tableau top card with its +5 bonus,
base delta +5/+10, and a move-count increment — as captured by the
spec-side description `execSpec`.  (`flipped_card = none` is how every move
is constructed, `moves.rs:21-29`.) -/
theorem execute_valid_matches_spec (m : Move) (g : GameState)
    (hv : m.is_valid g.board = true)
    (hfc : m.flipped_card = none)
    (hns : ¬(m.from_.pile_type = PileType.Tableau ∧
      m.to_.pile_type = PileType.Tableau ∧
      m.from_.pile_index = m.to_.pile_index)) :
    (m.execute g).1 = true ∧ (m.execute g).2.2 = execSpec m g := by
  rcases is_valid_facts hv with ⟨hft, hlt, hidx, hdst⟩ | ⟨hft, c, hgl, hdst⟩ |
    ⟨hft, hlt4, c, hgl, hdst⟩
  · -- Tableau source
    have hcolb : m.from_.pile_index < g.board.tableau.length :=
      getD_ne_nil_lt (by intro hnil; rw [hnil] at hidx; simp at hidx)
    have hRself : ∀ X : List Card,
        (g.board.tableau.set m.from_.pile_index X)[m.from_.pile_index]?.getD [] = X := by
      intro X
      rw [List.getElem?_set_self', List.getElem?_eq_getElem hcolb]
      rfl
    rcases valid_dest_facts hdst with ⟨hto, hlt2⟩ | ⟨hto, hlt2⟩
    · -- Tableau destination, different column
      have hne : m.from_.pile_index ≠ m.to_.pile_index := fun hcontra =>
        hns ⟨hft, hto, hcontra⟩
      have hRfrom2 : ∀ X Y : List Card,
          ((g.board.tableau.set m.from_.pile_index X).set m.to_.pile_index Y)[m.from_.pile_index]?.getD [] = X := by
        intro X Y
        rw [List.getElem?_set_ne (Ne.symm hne), List.getElem?_set_self',
          List.getElem?_eq_getElem hcolb]
        rfl
      by_cases hpos : 0 < m.from_.card_index
      · cases hget : (g.board.tableau[m.from_.pile_index]?.getD [])[m.from_.card_index - 1]? with
        | none =>
          exfalso
          rw [List.getElem?_eq_none_iff] at hget
          rw [List.getD_eq_getElem?_getD] at hidx
          omega
        | some cb =>
          have hexp : (List.take m.from_.card_index (g.board.tableau[m.from_.pile_index]?.getD [])).getLast? = some cb := by
            have h1 : (List.take m.from_.card_index (g.board.tableau.getD m.from_.pile_index [])).getLast? = some cb := by
              rw [take_getLast hpos (by omega), List.getD_eq_getElem?_getD]
              exact hget
            rw [List.getD_eq_getElem?_getD] at h1
            exact h1
          by_cases hcb : cb.face_up = true
          · constructor
            · simp [Move.execute, Move.finish_execute, hv, hft, hto, hpos, hget, hcb, hfc, save_undo_board, hRself, hRfrom2, hexp]
            · simp [Move.execute, Move.finish_execute, execSpec, hv, hft, hto, hpos, hget, hcb, hfc, hexp, save_undo_board, hRself, hRfrom2, add_assoc]
          · have hcb2 : cb.face_up = false := by
              revert hcb
              cases cb.face_up <;> simp
            constructor
            · simp [Move.execute, Move.finish_execute, hv, hft, hto, hpos, hget, hcb2, hfc, save_undo_board, hRself, hRfrom2, hexp]
            · simp [Move.execute, Move.finish_execute, execSpec, hv, hft, hto, hpos, hget, hcb2, hfc, hexp, save_undo_board, hRself, hRfrom2, add_assoc]
      · have h0 : m.from_.card_index = 0 := by omega
        constructor
        · simp [Move.execute, Move.finish_execute, hv, hft, hto, hpos, hfc, save_undo_board, hRself, hRfrom2, h0]
        · simp [Move.execute, Move.finish_execute, execSpec, hv, hft, hto, hpos, hfc, save_undo_board, hRself, hRfrom2, h0, add_assoc]
    · -- Foundation destination
      by_cases hpos : 0 < m.from_.card_index
      · cases hget : (g.board.tableau[m.from_.pile_index]?.getD [])[m.from_.card_index - 1]? with
        | none =>
          exfalso
          rw [List.getElem?_eq_none_iff] at hget
          rw [List.getD_eq_getElem?_getD] at hidx
          omega
        | some cb =>
          have hexp : (List.take m.from_.card_index (g.board.tableau[m.from_.pile_index]?.getD [])).getLast? = some cb := by
            have h1 : (List.take m.from_.card_index (g.board.tableau.getD m.from_.pile_index [])).getLast? = some cb := by
              rw [take_getLast hpos (by omega), List.getD_eq_getElem?_getD]
              exact hget
            rw [List.getD_eq_getElem?_getD] at h1
            exact h1
          by_cases hcb : cb.face_up = true
          · constructor
            · simp [Move.execute, Move.finish_execute, hv, hft, hto, hpos, hget, hcb, hfc, save_undo_board, hRself, hexp]
            · simp [Move.execute, Move.finish_execute, execSpec, hv, hft, hto, hpos, hget, hcb, hfc, hexp, save_undo_board, hRself, add_assoc]
          · have hcb2 : cb.face_up = false := by
              revert hcb
              cases cb.face_up <;> simp
            constructor
            · simp [Move.execute, Move.finish_execute, hv, hft, hto, hpos, hget, hcb2, hfc, save_undo_board, hRself, hexp]
            · simp [Move.execute, Move.finish_execute, execSpec, hv, hft, hto, hpos, hget, hcb2, hfc, hexp, save_undo_board, hRself, add_assoc]
      · have h0 : m.from_.card_index = 0 := by omega
        constructor
        · simp [Move.execute, Move.finish_execute, hv, hft, hto, hpos, hfc, save_undo_board, hRself, h0]
        · simp [Move.execute, Move.finish_execute, execSpec, hv, hft, hto, hpos, hfc, save_undo_board, hRself, h0, add_assoc]
  · -- Waste source
    rcases valid_dest_facts hdst with ⟨hto, hlt2⟩ | ⟨hto, hlt2⟩
    · constructor
      · simp [Move.execute, Move.finish_execute, hv, hft, hto, hgl, hfc, save_undo_board]
      · simp [Move.execute, Move.finish_execute, execSpec, hv, hft, hto, hgl, hfc, save_undo_board, add_assoc]
    · constructor
      · simp [Move.execute, Move.finish_execute, hv, hft, hto, hgl, hfc, save_undo_board]
      · simp [Move.execute, Move.finish_execute, execSpec, hv, hft, hto, hgl, hfc, save_undo_board, add_assoc]
  · -- Foundation source
    have hgl2 := hgl
    rw [List.getD_eq_getElem?_getD] at hgl2
    rcases valid_dest_facts hdst with ⟨hto, hlt2⟩ | ⟨hto, hlt2⟩
    · constructor
      · simp [Move.execute, Move.finish_execute, hv, hft, hto, hgl2, hfc, save_undo_board]
      · simp [Move.execute, Move.finish_execute, execSpec, hv, hft, hto, hgl, hgl2, hfc, save_undo_board, add_assoc]
    · constructor
      · simp [Move.execute, Move.finish_execute, hv, hft, hto, hgl2, hfc, save_undo_board]
      · simp [Move.execute, Move.finish_execute, execSpec, hv, hft, hto, hgl, hgl2, hfc, save_undo_board, add_assoc]

/-- Witness for C5's amended statement: the spec's Scenario D — moving the
6-of-Hearts-led run onto a 7 of Clubs in another column relocates both
cards, flips the 5 of Clubs beneath, and matches the spec-side description
exactly. -/
theorem execute_valid_matches_spec_witness :
    (Move.new ⟨PileType.Tableau, 0, 1⟩ ⟨PileType.Tableau, 1, 1⟩ []).is_valid (⟨⟨[[⟨Suit.Clubs, Rank.Five, false⟩, ⟨Suit.Hearts, Rank.Six, true⟩, ⟨Suit.Spades, Rank.Five, true⟩], [⟨Suit.Clubs, Rank.Seven, true⟩], [], [], [], [], []], [], [], [[], [], [], []], none, 0, 0, 3⟩, []⟩ : GameState).board = true ∧
      ((Move.new ⟨PileType.Tableau, 0, 1⟩ ⟨PileType.Tableau, 1, 1⟩ []).execute (⟨⟨[[⟨Suit.Clubs, Rank.Five, false⟩, ⟨Suit.Hearts, Rank.Six, true⟩, ⟨Suit.Spades, Rank.Five, true⟩], [⟨Suit.Clubs, Rank.Seven, true⟩], [], [], [], [], []], [], [], [[], [], [], []], none, 0, 0, 3⟩, []⟩ : GameState)).1 = true ∧
      ((Move.new ⟨PileType.Tableau, 0, 1⟩ ⟨PileType.Tableau, 1, 1⟩ []).execute (⟨⟨[[⟨Suit.Clubs, Rank.Five, false⟩, ⟨Suit.Hearts, Rank.Six, true⟩, ⟨Suit.Spades, Rank.Five, true⟩], [⟨Suit.Clubs, Rank.Seven, true⟩], [], [], [], [], []], [], [], [[], [], [], []], none, 0, 0, 3⟩, []⟩ : GameState)).2.2 = execSpec (Move.new ⟨PileType.Tableau, 0, 1⟩ ⟨PileType.Tableau, 1, 1⟩ []) (⟨⟨[[⟨Suit.Clubs, Rank.Five, false⟩, ⟨Suit.Hearts, Rank.Six, true⟩, ⟨Suit.Spades, Rank.Five, true⟩], [⟨Suit.Clubs, Rank.Seven, true⟩], [], [], [], [], []], [], [], [[], [], [], []], none, 0, 0, 3⟩, []⟩ : GameState) := by
  have h := execute_valid_matches_spec (Move.new ⟨PileType.Tableau, 0, 1⟩ ⟨PileType.Tableau, 1, 1⟩ []) (⟨⟨[[⟨Suit.Clubs, Rank.Five, false⟩, ⟨Suit.Hearts, Rank.Six, true⟩, ⟨Suit.Spades, Rank.Five, true⟩], [⟨Suit.Clubs, Rank.Seven, true⟩], [], [], [], [], []], [], [], [[], [], [], []], none, 0, 0, 3⟩, []⟩ : GameState) (by decide) rfl (by decide)
  exact ⟨by decide, h.1, h.2⟩

/-- Counterexample for C5 as frozen: validation accepts a "move" of the run
led by the 5 of Hearts from tableau column 0 back onto column 0 itself (the
5 of Hearts stacks on the column's own 6 of Spades top card).  Executing it
succeeds, yet the newly exposed face-down 5 of Clubs is NOT flipped face up
— the column is unchanged — while the +5 flip bonus is still credited on
top of the +5 base (score +10), so execution does not perform what the
claim lists for every valid move. -/
theorem execute_self_move_skips_flip :
    (Move.new ⟨PileType.Tableau, 0, 1⟩ ⟨PileType.Tableau, 0, 0⟩ []).is_valid (⟨⟨[[⟨Suit.Clubs, Rank.Five, false⟩, ⟨Suit.Hearts, Rank.Five, true⟩, ⟨Suit.Spades, Rank.Six, true⟩], [], [], [], [], [], []], [], [], [[], [], [], []], none, 0, 0, 3⟩, []⟩ : GameState).board = true ∧
      ((Move.new ⟨PileType.Tableau, 0, 1⟩ ⟨PileType.Tableau, 0, 0⟩ []).execute (⟨⟨[[⟨Suit.Clubs, Rank.Five, false⟩, ⟨Suit.Hearts, Rank.Five, true⟩, ⟨Suit.Spades, Rank.Six, true⟩], [], [], [], [], [], []], [], [], [[], [], [], []], none, 0, 0, 3⟩, []⟩ : GameState)).1 = true ∧
      ((Move.new ⟨PileType.Tableau, 0, 1⟩ ⟨PileType.Tableau, 0, 0⟩ []).execute (⟨⟨[[⟨Suit.Clubs, Rank.Five, false⟩, ⟨Suit.Hearts, Rank.Five, true⟩, ⟨Suit.Spades, Rank.Six, true⟩], [], [], [], [], [], []], [], [], [[], [], [], []], none, 0, 0, 3⟩, []⟩ : GameState)).2.2.board.tableau.getD 0 [] =
        [⟨Suit.Clubs, Rank.Five, false⟩, ⟨Suit.Hearts, Rank.Five, true⟩,
          ⟨Suit.Spades, Rank.Six, true⟩] ∧
      ((Move.new ⟨PileType.Tableau, 0, 1⟩ ⟨PileType.Tableau, 0, 0⟩ []).execute (⟨⟨[[⟨Suit.Clubs, Rank.Five, false⟩, ⟨Suit.Hearts, Rank.Five, true⟩, ⟨Suit.Spades, Rank.Six, true⟩], [], [], [], [], [], []], [], [], [[], [], [], []], none, 0, 0, 3⟩, []⟩ : GameState)).2.2.board.score = 10 := by
  refine ⟨?_, ?_, ?_, ?_⟩ <;> decide
